import Mathlib

/-!
Verification development for the TimeBrew news-briefing pipeline.

The definitions below are a shallow embedding of the backend handlers:

* `newsCurator`, `newsEditor`, `emailDispatcher` embed the three stage
  workers (src/backend/handlers/ai/news_curator.py, news_editor.py,
  email_dispatcher.py);
* `triggerBrew` and `schedulerDueBrew` / `schedulerSweep` embed the
  manual trigger and the periodic scheduler
  (src/backend/handlers/scheduler/trigger_brew.py, brew_scheduler.py);
* `submitFeedback` embeds the feedback endpoint
  (src/backend/handlers/feedback/submit.py);
* `callPerplexity` embeds the retry loop of
  `AIService._call_perplexity` (src/backend/utils/ai_service.py).

The relational store is modelled as explicit lists of records; SQL
statements become list lookups and updates.  Timestamps are integer
minutes (UTC), and a timezone is an integer offset in minutes, so the
`AT TIME ZONE` arithmetic of the scheduler query becomes integer
arithmetic with floor division.  External collaborators (the language
model, JSON parsing of its output, the SMTP transport, Step Functions)
are oracles supplied as explicit scenario data: the handlers are
deterministic functions of the store plus that scenario.  Database
operations themselves are assumed to succeed, matching the intended
(fault-free) reading of each handler; exception paths of the source
that only fire on database faults are therefore not reachable in the
model.
-/

namespace TimeBrew

/-- Pipeline stage of a run, the value of the run_tracker.current_stage
column: three working stages plus the two terminal stages. -/
inductive Stage
  | curator
  | editor
  | dispatcher
  | completed
  | failed
deriving DecidableEq, Repr

/-- Working (non-terminal) stages, the set ('curator', 'editor',
'dispatcher') used by the scheduler and trigger pre-check queries. -/
def isWorking : Stage → Bool
  | .curator => true
  | .editor => true
  | .dispatcher => true
  | _ => false

/-- Row of time_brew.run_tracker. -/
structure Run where
  runId : Nat
  brewId : Nat
  userId : Nat
  currentStage : Stage
  failedStage : Option Stage
  errorMessage : Option String
  createdAt : Int
  updatedAt : Int
deriving DecidableEq, Repr

/-- Row of time_brew.users (only the columns the modelled handlers
read; the timezone column becomes an offset from UTC in minutes). -/
structure User where
  userId : Nat
  isActive : Bool
  tzOffset : Int
deriving DecidableEq, Repr

/-- Row of time_brew.brews (delivery_time is minutes after local
midnight; last_sent_date is a UTC timestamp in minutes). -/
structure Brew where
  brewId : Nat
  userId : Nat
  isActive : Bool
  deliveryTime : Int
  lastSentDate : Option Int
deriving DecidableEq, Repr

/-- One curated article as stored in curator_logs.raw_articles. -/
structure Article where
  headline : String
  summary : String
  source : String
  publishedTime : String
  relevance : String
  url : String
deriving DecidableEq, Repr

/-- Row of time_brew.curator_logs. -/
structure CuratorLog where
  runId : Nat
  userId : Nat
  rawArticles : List Article
  articleCount : Nat
  rawLlmResponse : Option String
  curatorNotes : String
deriving DecidableEq, Repr

/-- One article write-up inside the editorial draft JSON. -/
structure EditorArticle where
  headline : String
  storyContent : String
  source : String
  originalUrl : String
  publishedTime : String
deriving DecidableEq, Repr

/-- The structured editorial draft produced by the editor stage. -/
structure EditorDraft where
  subject : String
  intro : String
  articles : List EditorArticle
  outro : String
deriving DecidableEq, Repr

/-- Row of time_brew.editor_logs.  The prompt_used column is modelled
by the SOURCE MATERIAL section of the prompt, which is the only part
of the prompt text any claim depends on. -/
structure EditorLog where
  runId : Nat
  userId : Nat
  brewId : Nat
  promptUsed : String
  rawLlmResponse : Option String
  editorialContent : Option EditorDraft
  emailSent : Bool
  emailSentTime : Option Int
deriving DecidableEq, Repr

/-- Row of time_brew.user_feedback. -/
structure FeedbackRow where
  id : Nat
  runId : Nat
  userId : Nat
  feedbackType : String
  articlePosition : Int
  createdAt : Int
deriving DecidableEq, Repr

/-- The relational store: one list per table, plus the id sequences
backing the RETURNING clauses of the INSERT statements. -/
structure DB where
  users : List User
  brews : List Brew
  runs : List Run
  curatorLogs : List CuratorLog
  editorLogs : List EditorLog
  feedback : List FeedbackRow
  nextRunId : Nat
  nextFeedbackId : Nat
deriving DecidableEq, Repr

/-- HTTP-style handler outcome: status code, a short message tag, and
the run id / stage payload carried by the 409 conflict response. -/
structure Response where
  code : Nat
  tag : String
  runId : Option Nat := none
  stage : Option Stage := none
deriving DecidableEq, Repr

/-! ## Shared row-update helpers (the UPDATE statements) -/

/-- UPDATE time_brew.run_tracker ... WHERE run_id = rid. -/
def updateRuns (db : DB) (rid : Nat) (f : Run → Run) : DB :=
  { db with runs := db.runs.map fun r => if r.runId == rid then f r else r }

/-- The fail contract: SET current_stage = 'failed', failed_stage,
error_message, updated_at WHERE run_id = rid. -/
def failRun (db : DB) (rid : Nat) (fs : Stage) (msg : String) (now : Int) : DB :=
  updateRuns db rid fun r =>
    { r with currentStage := .failed, failedStage := some fs,
             errorMessage := some msg, updatedAt := now }

/-- The advance contract: SET current_stage = next, updated_at WHERE
run_id = rid. -/
def advanceRun (db : DB) (rid : Nat) (next : Stage) (now : Int) : DB :=
  updateRuns db rid fun r => { r with currentStage := next, updatedAt := now }

/-! ## News curator handler -/

/-- Result of `ai_service.parse_json_from_response` on the curator
response: the articles array plus the curator_notes string. -/
structure CuratorParsed where
  articles : List Article
  curatorNotes : String
deriving DecidableEq, Repr

/-- External-collaborator oracle for one curator invocation:
`aiContent = none` models the generation call raising, `parsed = none`
models `parse_json_from_response` raising ValueError on the returned
content. -/
structure CuratorScenario where
  aiContent : Option String
  parsed : Option CuratorParsed
  now : Int
deriving DecidableEq, Repr

/-- UPDATE time_brew.curator_logs SET raw_articles, curator_notes
WHERE run_id = rid (the source also refreshes runtime_ms and does not
touch article_count). -/
def updateCuratorLog (db : DB) (rid : Nat) (articles : List Article) (notes : String) : DB :=
  { db with curatorLogs := db.curatorLogs.map fun cl =>
      if cl.runId == rid then { cl with rawArticles := articles, curatorNotes := notes }
      else cl }

/-- The news_curator lambda_handler: admission checks, generation call,
raw-response insert (committed before parsing), parse, final update and
advance to editor; any post-admission failure drives the run to
failed with failed_stage = curator. -/
def newsCurator (db : DB) (brewId runId : Nat) (sc : CuratorScenario) : Response × DB :=
  match db.brews.find? (fun b => b.brewId == brewId && b.isActive) with
  | none => (⟨404, "Active brew not found", none, none⟩, db)
  | some brew =>
    match db.users.find? (fun u => u.userId == brew.userId) with
    | none => (⟨404, "Active brew not found", none, none⟩, db)
    | some _user =>
      match db.runs.find? (fun r => r.runId == runId && r.brewId == brewId) with
      | none => (⟨400, "Invalid run_id or brew_id", none, none⟩, db)
      | some run =>
        if run.currentStage ≠ Stage.curator then
          (⟨400, "Invalid stage, expected curator", none, none⟩, db)
        else
          match sc.aiContent with
          | none =>
            (⟨500, "exception", none, none⟩,
             failRun db runId .curator "API error" sc.now)
          | some content =>
            let db1 : DB :=
              { db with curatorLogs :=
                  db.curatorLogs ++ [⟨runId, brew.userId, [], 0, some content, ""⟩] }
            match sc.parsed with
            | none =>
              (⟨500, "exception", none, none⟩,
               failRun db1 runId .curator "Failed to parse JSON from AI response" sc.now)
            | some pr =>
              let db2 := updateCuratorLog db1 runId pr.articles pr.curatorNotes
              (⟨200, "Articles collected successfully", none, none⟩,
               advanceRun db2 runId .editor sc.now)

/-! ## News editor handler -/

/-- External-collaborator oracle for one editor invocation. -/
structure EditorScenario where
  aiContent : Option String
  parsed : Option EditorDraft
  now : Int
deriving DecidableEq, Repr

/-- One Article block of the SOURCE MATERIAL section of the editor
prompt. -/
def formatArticleBlock (i : Nat) (a : Article) : String :=
  "Article " ++ toString (i + 1) ++ ":\nHeadline: " ++ a.headline
    ++ "\nSummary: " ++ a.summary ++ "\nSource: " ++ a.source
    ++ "\nPublished: " ++ a.publishedTime ++ "\nURL: " ++ a.url
    ++ "\nRelevance: " ++ a.relevance

/-- The articles_text value of news_editor: formatted source material,
or the fallback sentence when the curator produced zero articles. -/
def articlesText (articles : List Article) : String :=
  if articles.isEmpty then
    "No articles found by curator - create valuable content anyway"
  else
    String.intercalate "\n\n" (articles.enum.map fun p => formatArticleBlock p.1 p.2)

/-- UPDATE time_brew.editor_logs SET editorial_content WHERE run_id. -/
def setEditorialContent (db : DB) (rid : Nat) (draft : EditorDraft) : DB :=
  { db with editorLogs := db.editorLogs.map fun el =>
      if el.runId == rid then { el with editorialContent := some draft } else el }

/-- The news_editor lambda_handler: loads the run (joined with brew and
user), verifies the editor stage, loads the curator log, builds the
source material (fallback text when zero articles), calls the model,
inserts the raw response (committed before parsing), parses and
validates, then stores the draft and advances to dispatcher; any
post-admission failure drives the run to failed with
failed_stage = editor. -/
def newsEditor (db : DB) (runId : Nat) (sc : EditorScenario) : Response × DB :=
  match db.runs.find? (fun r => r.runId == runId) with
  | none => (⟨404, "Run not found", none, none⟩, db)
  | some run =>
    match db.brews.find? (fun b => b.brewId == run.brewId) with
    | none => (⟨404, "Run not found", none, none⟩, db)
    | some _brew =>
      match db.users.find? (fun u => u.userId == run.userId) with
      | none => (⟨404, "Run not found", none, none⟩, db)
      | some _user =>
        if run.currentStage ≠ Stage.editor then
          (⟨400, "Run stage is not editor", none, none⟩, db)
        else
          match db.curatorLogs.find? (fun cl => cl.runId == runId) with
          | none => (⟨404, "No curator log found for run_id", none, none⟩, db)
          | some clog =>
            match sc.aiContent with
            | none =>
              (⟨500, "exception", none, none⟩,
               failRun db runId .editor "API error" sc.now)
            | some content =>
              let db1 : DB :=
                { db with editorLogs :=
                    db.editorLogs ++
                      [⟨runId, run.userId, run.brewId, articlesText clog.rawArticles,
                        some content, none, false, none⟩] }
              match sc.parsed with
              | none =>
                (⟨500, "exception", none, none⟩,
                 failRun db1 runId .editor "Failed to process AI response" sc.now)
              | some draft =>
                let db2 := setEditorialContent db1 runId draft
                (⟨200, "Briefing content created successfully", none, none⟩,
                 advanceRun db2 runId .dispatcher sc.now)

/-! ## Email dispatcher handler -/

/-- External-collaborator oracle for one dispatcher invocation:
`sendOk` is the outcome of the SMTP send; `rawParsed` is the result of
the json.loads fallback on raw_llm_response when editorial_content is
absent. -/
structure DispatchScenario where
  sendOk : Bool
  rawParsed : Option EditorDraft
  now : Int
deriving DecidableEq, Repr

/-- UPDATE time_brew.editor_logs SET email_sent = true,
email_sent_time WHERE run_id. -/
def markEmailSent (db : DB) (rid : Nat) (t : Int) : DB :=
  { db with editorLogs := db.editorLogs.map fun el =>
      if el.runId == rid then { el with emailSent := true, emailSentTime := some t }
      else el }

/-- UPDATE time_brew.brews SET last_sent_date WHERE id. -/
def setBrewLastSent (db : DB) (bid : Nat) (t : Int) : DB :=
  { db with brews := db.brews.map fun b =>
      if b.brewId == bid then { b with lastSentDate := some t } else b }

/-- The email_dispatcher lambda_handler: loads the run (joined with
brew and user), verifies the dispatcher stage, loads the editor log,
resolves the draft (editorial_content, falling back to parsing
raw_llm_response), sends, and on success commits the three-way update
(run to completed, brew.last_sent_date, editor_log.email_sent) in one
transaction; on a send failure the exception path drives the run to
failed with failed_stage = dispatcher and commits nothing else. -/
def emailDispatcher (db : DB) (runId : Nat) (sc : DispatchScenario) : Response × DB :=
  match db.runs.find? (fun r => r.runId == runId) with
  | none => (⟨404, "Run not found", none, none⟩, db)
  | some run =>
    match db.brews.find? (fun b => b.brewId == run.brewId) with
    | none => (⟨404, "Run not found", none, none⟩, db)
    | some _brew =>
      match db.users.find? (fun u => u.userId == run.userId) with
      | none => (⟨404, "Run not found", none, none⟩, db)
      | some _user =>
        if run.currentStage ≠ Stage.dispatcher then
          (⟨400, "Run stage is not dispatcher", none, none⟩, db)
        else
          match db.editorLogs.find? (fun el => el.runId == runId) with
          | none => (⟨404, "Editor log not found", none, none⟩, db)
          | some elog =>
            let send : EditorDraft → Response × DB := fun _draft =>
              if sc.sendOk then
                let db1 := advanceRun db runId .completed sc.now
                let db2 := setBrewLastSent db1 run.brewId sc.now
                let db3 := markEmailSent db2 runId sc.now
                (⟨200, "Email sent successfully", none, none⟩, db3)
              else
                (⟨500, "exception", none, none⟩,
                 failRun db runId .dispatcher "SMTP error" sc.now)
            match elog.editorialContent with
            | some draft => send draft
            | none =>
              match elog.rawLlmResponse with
              | none => (⟨400, "Missing editor draft content", none, none⟩, db)
              | some _raw =>
                match sc.rawParsed with
                | none => (⟨400, "Invalid editor draft content", none, none⟩, db)
                | some draft => send draft

/-! ## Run creation, manual trigger and scheduler -/

/-- INSERT INTO time_brew.run_tracker (brew_id, user_id, current_stage)
VALUES (.., .., 'curator') RETURNING run_id. -/
def createRun (db : DB) (brewId userId : Nat) (now : Int) : Nat × DB :=
  (db.nextRunId,
   { db with
       runs := db.runs ++ [⟨db.nextRunId, brewId, userId, .curator, none, none, now, now⟩],
       nextRunId := db.nextRunId + 1 })

/-- SELECT run_id, current_stage FROM run_tracker WHERE brew_id = ..
AND current_stage IN ('curator','editor','dispatcher') ORDER BY
created_at DESC LIMIT 1. -/
def latestWorkingRun (db : DB) (brewId : Nat) : Option Run :=
  (db.runs.filter fun r => r.brewId == brewId && isWorking r.currentStage).foldl
    (fun acc r =>
      match acc with
      | none => some r
      | some m => if r.createdAt > m.createdAt then some r else some m)
    none

/-- The trigger_brew lambda_handler: loads the brew (joined with its
user), rejects inactive brews, rejects with 409 carrying the existing
run id and stage when a run of the brew is in a working stage, and
otherwise inserts a fresh curator-stage run before starting the
pipeline (a pipeline start failure returns 500 but the inserted run
remains). -/
def triggerBrew (db : DB) (brewId : Nat) (now : Int) (pipelineOk : Bool) : Response × DB :=
  match db.brews.find? (fun b => b.brewId == brewId) with
  | none => (⟨404, "Brew not found", none, none⟩, db)
  | some brew =>
    match db.users.find? (fun u => u.userId == brew.userId) with
    | none => (⟨404, "Brew not found", none, none⟩, db)
    | some _user =>
      if !brew.isActive then
        (⟨400, "Brew is not active", none, none⟩, db)
      else
        match latestWorkingRun db brewId with
        | some r =>
          (⟨409, "Run already in progress", some r.runId, some r.currentStage⟩, db)
        | none =>
          let p := createRun db brewId brew.userId now
          if pipelineOk then
            (⟨200, "AI pipeline triggered successfully", some p.1, none⟩, p.2)
          else
            (⟨500, "Failed to trigger AI pipeline", some p.1, none⟩, p.2)

/-- The WHERE clause of the brew_scheduler query for one brew: active
brew and user, timezone-local delivery time within the next 30
minutes, not already sent today in the local timezone, and NOT EXISTS
a run of the brew in a working stage created within the last 2 hours
(120 minutes). -/
def schedulerDueBrew (db : DB) (b : Brew) (now : Int) : Bool :=
  match db.users.find? (fun u => u.userId == b.userId) with
  | none => false
  | some u =>
    let localNow := now + u.tzOffset
    let deliveryLocal := (Int.fdiv localNow 1440) * 1440 + b.deliveryTime
    b.isActive && u.isActive
      && decide (localNow ≤ deliveryLocal)
      && decide (deliveryLocal ≤ localNow + 30)
      && (match b.lastSentDate with
          | none => true
          | some ls => decide (Int.fdiv (ls + u.tzOffset) 1440 < Int.fdiv localNow 1440))
      && !(db.runs.any fun r =>
            r.brewId == b.brewId && isWorking r.currentStage
              && decide (r.createdAt > now - 120))

/-- The brew_scheduler lambda_handler: evaluates the due query once,
then creates one curator-stage run per due brew (pipeline start
failures do not abort the remaining brews and do not mutate the
store). -/
def schedulerSweep (db : DB) (now : Int) : DB :=
  (db.brews.filter fun b => schedulerDueBrew db b now).foldl
    (fun d b => (createRun d b.brewId b.userId now).2) db

/-! ## Feedback submission -/

/-- Input of the feedback/submit lambda_handler. -/
structure FeedbackInput where
  runId : Nat
  feedbackType : String
  rating : Int
  articlePosition : Option Int
  userId : Option Nat
  now : Int
deriving DecidableEq, Repr

/-- Mapping of the 1..5 rating onto the stored reaction: ratings of 4
and above become like, 2 and below become dislike, and the neutral
rating 3 is not stored at all. -/
def classifyRating (rating : Int) : Option String :=
  if rating ≥ 4 then some "like"
  else if rating ≤ 2 then some "dislike"
  else none

/-- WHERE run_id = .. AND user_id = .. AND article_position = .. of
the existing-feedback lookup. -/
def feedbackKey (rid uid : Nat) (pos : Int) (row : FeedbackRow) : Bool :=
  row.runId == rid && row.userId == uid && row.articlePosition == pos

/-- Validation of the article position against the stored
article_count: positions below 1 or above the count are rejected. -/
def positionOutOfRange (pos : Option Int) (articleCount : Nat) : Bool :=
  match pos with
  | some p => decide (p < 1) || decide (p > (articleCount : Int))
  | none => false

/-- The feedback toggle core, after the run lookup and the ownership
check: article-position validation, rating classification, then
toggle-off (DELETE), update-in-place (UPDATE) or fresh INSERT against
the single row found for (run_id, user_id, article_position or 0). -/
def submitFeedbackCore (db : DB) (inp : FeedbackInput) (uid : Nat) (articleCount : Nat) :
    Response × DB :=
  if inp.feedbackType = "article" ∧ articleCount = 0 then
    (⟨400, "No articles available for feedback", none, none⟩, db)
  else if inp.feedbackType = "article" ∧
      positionOutOfRange inp.articlePosition articleCount = true then
    (⟨400, "article_position out of range", none, none⟩, db)
  else
    match classifyRating inp.rating with
    | none =>
      (⟨200, "Neutral feedback received but not stored", none, none⟩, db)
    | some reaction =>
      let pos : Int := inp.articlePosition.getD 0
      match db.feedback.find? (feedbackKey inp.runId uid pos) with
      | some existing =>
        if existing.feedbackType = reaction then
          (⟨200, "Feedback removed (toggled off)", none, none⟩,
           { db with feedback := db.feedback.filter fun row => row.id ≠ existing.id })
        else
          (⟨200, "Feedback updated successfully", none, none⟩,
           { db with feedback := db.feedback.map fun row =>
               if row.id == existing.id then
                 { row with feedbackType := reaction, createdAt := inp.now }
               else row })
      | none =>
        (⟨200, "Feedback submitted successfully", none, none⟩,
         { db with
             feedback :=
               db.feedback ++ [⟨db.nextFeedbackId, inp.runId, uid, reaction, pos, inp.now⟩],
             nextFeedbackId := db.nextFeedbackId + 1 })

/-- The feedback/submit lambda_handler: input validation, run lookup
with the LEFT JOIN onto curator_logs for article_count, the ownership
check (a user_id of 0 counts as absent, as Python truthiness does),
then the toggle core. -/
def submitFeedback (db : DB) (inp : FeedbackInput) : Response × DB :=
  if inp.feedbackType ≠ "overall" ∧ inp.feedbackType ≠ "article" then
    (⟨400, "feedback_type must be either overall or article", none, none⟩, db)
  else if inp.rating < 1 ∨ inp.rating > 5 then
    (⟨400, "rating must be an integer between 1 and 5", none, none⟩, db)
  else if inp.feedbackType = "article" ∧ inp.articlePosition = none then
    (⟨400, "article_position is required for article feedback", none, none⟩, db)
  else
    match db.runs.find? (fun r => r.runId == inp.runId) with
    | none => (⟨404, "Run not found", none, none⟩, db)
    | some run =>
      let articleCount : Nat :=
        match db.curatorLogs.find? (fun cl => cl.runId == inp.runId) with
        | some cl => cl.articleCount
        | none => 0
      match inp.userId with
      | none => submitFeedbackCore db inp run.userId articleCount
      | some u =>
        if u = 0 then submitFeedbackCore db inp run.userId articleCount
        else if u ≠ run.userId then
          (⟨403, "User not authorized for this run", none, none⟩, db)
        else submitFeedbackCore db inp u articleCount

/-- The COALESCE(cl.article_count, 0) of the run lookup's LEFT JOIN
onto curator_logs, as used by the article-position validation. -/
def articleCountOf (db : DB) (rid : Nat) : Nat :=
  match db.curatorLogs.find? (fun cl => cl.runId == rid) with
  | some cl => cl.articleCount
  | none => 0

/-! ## Generation-service retry loop -/

/-- Outcome of one HTTP POST to the generation endpoint. -/
inductive PerplexityOutcome
  | timeout
  | connError
  | httpError (status : Nat)
  | ok (content : String)
deriving DecidableEq, Repr

/-- The exception classes the retry loop catches: requests Timeout,
ConnectionError and ReadTimeout; every other outcome is raised
immediately. -/
def isRetryableOutcome : PerplexityOutcome → Bool
  | .timeout => true
  | .connError => true
  | _ => false

/-- Result of `AIService._call_perplexity`: content on success, the
number of HTTP attempts performed, and the backoff delays slept
(seconds, in order). -/
structure CallResult where
  content : Option String
  attempts : Nat
  delays : List Nat
deriving DecidableEq, Repr

/-- The body of the retry loop `for attempt in range(max_retries + 1)`
of `_call_perplexity`, written with the number of attempts still
allowed (fuel = max_retries + 1 - attempt) as an explicit structural
argument: before every attempt after the first it sleeps 2 ^ attempt
seconds; a timeout or connection error retries while fuel remains
(fuel = 1 is the Python `attempt == max_retries` case, which
re-raises); any other failure raises at once. -/
def callPerplexityGo (outcomes : Nat → PerplexityOutcome) :
    Nat → Nat → List Nat → CallResult
  | 0, attempt, delays => ⟨none, attempt, delays⟩
  | fuel + 1, attempt, delays =>
    let delays0 := if 0 < attempt then delays ++ [2 ^ attempt] else delays
    match outcomes attempt with
    | .ok c => ⟨some c, attempt + 1, delays0⟩
    | .timeout =>
      if fuel = 0 then ⟨none, attempt + 1, delays0⟩
      else callPerplexityGo outcomes fuel (attempt + 1) delays0
    | .connError =>
      if fuel = 0 then ⟨none, attempt + 1, delays0⟩
      else callPerplexityGo outcomes fuel (attempt + 1) delays0
    | .httpError _ => ⟨none, attempt + 1, delays0⟩

/-- `AIService._call_perplexity` with its retry policy; the source
default is maxRetries = 3, so `range(max_retries + 1)` allows
maxRetries + 1 attempts. -/
def callPerplexity (outcomes : Nat → PerplexityOutcome) (maxRetries : Nat := 3) : CallResult :=
  callPerplexityGo outcomes (maxRetries + 1) 0 []

/-! ## The whole system as a transition system -/

/-- One unit of work against the shared store: a manual trigger, a
scheduler sweep, one stage-worker invocation, or a feedback
submission. -/
inductive Step
  | trigger (brewId : Nat) (now : Int) (pipelineOk : Bool)
  | sweep (now : Int)
  | curatorStep (brewId runId : Nat) (sc : CuratorScenario)
  | editorStep (runId : Nat) (sc : EditorScenario)
  | dispatchStep (runId : Nat) (sc : DispatchScenario)
  | feedbackStep (inp : FeedbackInput)

/-- Effect of one unit of work on the store. -/
def applyStep (db : DB) : Step → DB
  | .trigger b now ok => (triggerBrew db b now ok).2
  | .sweep now => schedulerSweep db now
  | .curatorStep b r sc => (newsCurator db b r sc).2
  | .editorStep r sc => (newsEditor db r sc).2
  | .dispatchStep r sc => (emailDispatcher db r sc).2
  | .feedbackStep inp => (submitFeedback db inp).2

/-- Stage of the run with the given id, as read from the store. -/
def stageAt (db : DB) (rid : Nat) : Option Stage :=
  (db.runs.find? fun r => r.runId == rid).map (·.currentStage)

/-- Well-formedness of the store: run ids are distinct and below the
id sequence (run_id is a generated primary key). -/
def WF (db : DB) : Prop :=
  (db.runs.map (·.runId)).Nodup ∧ ∀ r ∈ db.runs, r.runId < db.nextRunId

instance (db : DB) : Decidable (WF db) := by
  unfold WF; infer_instance

/-! ## Lemmas about the generation-service retry loop -/

/-- The loop performs at most `fuel` further attempts. -/
theorem callPerplexityGo_attempts_le (o : Nat → PerplexityOutcome) :
    ∀ fuel attempt delays,
      (callPerplexityGo o fuel attempt delays).attempts ≤ attempt + fuel := by
  intro fuel
  induction fuel with
  | zero => intro attempt delays; simp [callPerplexityGo]
  | succ f ih =>
    intro attempt delays
    simp only [callPerplexityGo]
    cases ho : o attempt with
    | ok c => simp
    | httpError s => simp
    | timeout =>
      by_cases hf : f = 0
      · simp [hf]
      · have := ih (attempt + 1)
          (if 0 < attempt then delays ++ [2 ^ attempt] else delays)
        simp [hf]
        omega
    | connError =>
      by_cases hf : f = 0
      · simp [hf]
      · have := ih (attempt + 1)
          (if 0 < attempt then delays ++ [2 ^ attempt] else delays)
        simp [hf]
        omega

/-- Every attempt that was followed by another attempt ended in a
timeout or connection error: nothing else is ever retried. -/
theorem callPerplexityGo_retry_only (o : Nat → PerplexityOutcome) :
    ∀ fuel attempt delays i, attempt ≤ i →
      i + 1 < (callPerplexityGo o fuel attempt delays).attempts →
      isRetryableOutcome (o i) = true := by
  intro fuel
  induction fuel with
  | zero => intro attempt delays i hi hlt; simp [callPerplexityGo] at hlt; omega
  | succ f ih =>
    intro attempt delays i hi hlt
    simp only [callPerplexityGo] at hlt
    cases ho : o attempt with
    | ok c => rw [ho] at hlt; simp at hlt; omega
    | httpError s => rw [ho] at hlt; simp at hlt; omega
    | timeout =>
      rw [ho] at hlt
      by_cases hf : f = 0
      · simp [hf] at hlt; omega
      · simp only [hf, if_false] at hlt
        rcases Nat.eq_or_lt_of_le hi with rfl | hgt
        · rw [ho]; rfl
        · exact ih (attempt + 1) _ i hgt hlt
    | connError =>
      rw [ho] at hlt
      by_cases hf : f = 0
      · simp [hf] at hlt; omega
      · simp only [hf, if_false] at hlt
        rcases Nat.eq_or_lt_of_le hi with rfl | hgt
        · rw [ho]; rfl
        · exact ih (attempt + 1) _ i hgt hlt

/-- A first-attempt outcome that is not a timeout or connection error
ends the loop at once: one attempt, no backoff sleep. -/
theorem callPerplexity_no_retry (o : Nat → PerplexityOutcome) (mr : Nat)
    (h : isRetryableOutcome (o 0) = false) :
    (callPerplexity o mr).attempts = 1 ∧ (callPerplexity o mr).delays = [] := by
  unfold callPerplexity
  simp only [callPerplexityGo]
  cases ho : o 0 with
  | ok c => simp
  | httpError s => simp
  | timeout => rw [ho] at h; simp [isRetryableOutcome] at h
  | connError => rw [ho] at h; simp [isRetryableOutcome] at h

/-- C8, counterexample: with the source default max_retries = 3
(`_call_perplexity`, src/backend/utils/ai_service.py), an invocation
whose every attempt times out performs 4 HTTP attempts in total, so
the stated bound of at most 3 attempts is wrong. -/
theorem c8_retry_counterexample :
    (callPerplexity (fun _ => .timeout)).attempts = 4
    ∧ ¬ (callPerplexity (fun _ => .timeout)).attempts ≤ 3 := by
  constructor
  · rfl
  · decide

/-- C8, amended: the generation call is retried only on
timeout/connection errors, with exponential backoff doubling from 2
seconds; the loop makes up to max_retries + 1 = 4 attempts in total
(one initial attempt plus at most 3 retries, source default
max_retries = 3); any non-timeout error ends the loop at the attempt
that raised it, with no further attempt; and when every attempt times
out the call fails after 4 attempts having slept 2, 4 and 8 seconds. -/
theorem c8_retry_policy (o : Nat → PerplexityOutcome) :
    (callPerplexity o).attempts ≤ 4
    ∧ (∀ i, i + 1 < (callPerplexity o).attempts → isRetryableOutcome (o i) = true)
    ∧ (isRetryableOutcome (o 0) = false →
        (callPerplexity o).attempts = 1 ∧ (callPerplexity o).delays = [])
    ∧ ((∀ i, o i = .timeout) → callPerplexity o = ⟨none, 4, [2, 4, 8]⟩) := by
  refine ⟨?_, ?_, ?_, ?_⟩
  · exact callPerplexityGo_attempts_le o 4 0 []
  · intro i hi
    exact callPerplexityGo_retry_only o 4 0 [] i (Nat.zero_le i) hi
  · exact callPerplexity_no_retry o 3
  · intro h
    unfold callPerplexity
    simp [callPerplexityGo, h]

/-- Witness for c8_retry_policy at concrete outcome sequences. -/
theorem c8_retry_policy_witness :
    callPerplexity (fun _ => PerplexityOutcome.timeout) 3 =
      ⟨none, 4, [2, 4, 8]⟩
    ∧ (callPerplexity (fun i =>
        if i = 0 then PerplexityOutcome.httpError 500
        else PerplexityOutcome.timeout)).attempts = 1 :=
  ⟨(c8_retry_policy (fun _ => PerplexityOutcome.timeout)).2.2.2 (fun _ => rfl),
   ((c8_retry_policy _).2.2.1 (by decide)).1⟩

/-! ## General list lemmas -/

/-- When the filter keeps exactly one element, find? returns it. -/
theorem find?_eq_of_filter_eq_single {α : Type} (p : α → Bool) :
    ∀ (l : List α) (x : α), l.filter p = [x] → l.find? p = some x := by
  intro l
  induction l with
  | nil => intro x h; simp at h
  | cons a l ih =>
    intro x h
    by_cases hp : p a = true
    · rw [List.filter_cons_of_pos hp] at h
      rw [List.find?_cons_of_pos _ hp]
      simp at h
      simp [h.1]
    · rw [List.filter_cons_of_neg hp] at h
      rw [List.find?_cons_of_neg _ hp]
      exact ih x h

/-- Filtering a filtered list never keeps more elements than filtering
the original list. -/
theorem length_filter_filter_le {α : Type} (p q : α → Bool) (l : List α) :
    ((l.filter q).filter p).length ≤ (l.filter p).length := by
  induction l with
  | nil => simp
  | cons a l ih =>
    by_cases hq : q a = true
    · rw [List.filter_cons_of_pos hq]
      by_cases hp : p a = true
      · rw [List.filter_cons_of_pos hp, List.filter_cons_of_pos hp]
        simpa using ih
      · rw [List.filter_cons_of_neg hp, List.filter_cons_of_neg hp]
        exact ih
    · rw [List.filter_cons_of_neg hq]
      by_cases hp : p a = true
      · rw [List.filter_cons_of_pos hp]
        simp only [List.length_cons]
        omega
      · rw [List.filter_cons_of_neg hp]
        exact ih

/-! ## Lemmas about the feedback endpoint -/

/-- With a valid overall-feedback input and an existing run, the
handler reduces to the toggle core running as the run owner. -/
theorem submitFeedback_overall (db : DB) (inp : FeedbackInput) (run : Run)
    (hty : inp.feedbackType = "overall")
    (hr1 : 1 ≤ inp.rating) (hr5 : inp.rating ≤ 5)
    (huid : inp.userId = none)
    (hrun : db.runs.find? (fun r => r.runId == inp.runId) = some run) :
    submitFeedback db inp =
      submitFeedbackCore db inp run.userId
        (match db.curatorLogs.find? (fun cl => cl.runId == inp.runId) with
         | some cl => cl.articleCount
         | none => 0) := by
  have h1 : ¬(inp.feedbackType ≠ "overall" ∧ inp.feedbackType ≠ "article") := by
    rw [hty]; intro h; exact h.1 rfl
  have h2 : ¬(inp.rating < 1 ∨ inp.rating > 5) := by omega
  have h3 : ¬(inp.feedbackType = "article" ∧ inp.articlePosition = none) := by
    rw [hty]; intro h; exact absurd h.1 (by decide)
  unfold submitFeedback
  rw [if_neg h1, if_neg h2, if_neg h3, hrun, huid]

/-- With a valid input of either feedback type (rating in range, an
article position present whenever the type is article) and an existing
run with no user_id override, the handler reduces to the toggle core
running as the run owner against the stored article count. -/
theorem submitFeedback_valid (db : DB) (inp : FeedbackInput) (run : Run) (ac : Nat)
    (hty : inp.feedbackType = "overall" ∨ inp.feedbackType = "article")
    (hr1 : 1 ≤ inp.rating) (hr5 : inp.rating ≤ 5)
    (hap : inp.feedbackType = "article" → inp.articlePosition ≠ none)
    (huid : inp.userId = none)
    (hrun : db.runs.find? (fun r => r.runId == inp.runId) = some run)
    (hac : articleCountOf db inp.runId = ac) :
    submitFeedback db inp = submitFeedbackCore db inp run.userId ac := by
  have h1 : ¬(inp.feedbackType ≠ "overall" ∧ inp.feedbackType ≠ "article") := by
    intro h
    rcases hty with ho | ha
    · exact h.1 ho
    · exact h.2 ha
  have h2 : ¬(inp.rating < 1 ∨ inp.rating > 5) := by omega
  have h3 : ¬(inp.feedbackType = "article" ∧ inp.articlePosition = none) := by
    intro h
    exact hap h.1 h.2
  subst hac
  unfold submitFeedback articleCountOf
  rw [if_neg h1, if_neg h2, if_neg h3, hrun, huid]

/-- The toggle core on an overall submission with a neutral rating:
nothing is stored and nothing changes. -/
theorem submitFeedbackCore_neutral (db : DB) (inp : FeedbackInput) (uid ac : Nat)
    (hty : inp.feedbackType = "overall")
    (hclass : classifyRating inp.rating = none) :
    submitFeedbackCore db inp uid ac =
      (⟨200, "Neutral feedback received but not stored", none, none⟩, db) := by
  have h1 : ¬(inp.feedbackType = "article" ∧ ac = 0) := by
    rw [hty]; intro h; exact absurd h.1 (by decide)
  have h2 : ¬(inp.feedbackType = "article" ∧
      positionOutOfRange inp.articlePosition ac = true) := by
    rw [hty]; intro h; exact absurd h.1 (by decide)
  unfold submitFeedbackCore
  rw [if_neg h1, if_neg h2, hclass]

/-- The toggle core when no feedback row exists for the key: a fresh
row is inserted at the key's article position. -/
theorem submitFeedbackCore_insert (db : DB) (inp : FeedbackInput) (uid ac : Nat)
    (t : String) (pos : Int)
    (h1 : ¬(inp.feedbackType = "article" ∧ ac = 0))
    (h2 : ¬(inp.feedbackType = "article" ∧
      positionOutOfRange inp.articlePosition ac = true))
    (hclass : classifyRating inp.rating = some t)
    (hgd : inp.articlePosition.getD 0 = pos)
    (hfind : db.feedback.find? (feedbackKey inp.runId uid pos) = none) :
    submitFeedbackCore db inp uid ac =
      (⟨200, "Feedback submitted successfully", none, none⟩,
       { db with
           feedback := db.feedback ++ [⟨db.nextFeedbackId, inp.runId, uid, t, pos, inp.now⟩],
           nextFeedbackId := db.nextFeedbackId + 1 }) := by
  unfold submitFeedbackCore
  rw [if_neg h1, if_neg h2, hclass]
  simp only [hgd]
  rw [hfind]

/-- The toggle core when a row with the same reaction exists at the
key: the row is deleted (toggle off). -/
theorem submitFeedbackCore_delete (db : DB) (inp : FeedbackInput) (uid ac : Nat)
    (t : String) (x : FeedbackRow) (pos : Int)
    (h1 : ¬(inp.feedbackType = "article" ∧ ac = 0))
    (h2 : ¬(inp.feedbackType = "article" ∧
      positionOutOfRange inp.articlePosition ac = true))
    (hclass : classifyRating inp.rating = some t)
    (hgd : inp.articlePosition.getD 0 = pos)
    (hfind : db.feedback.find? (feedbackKey inp.runId uid pos) = some x)
    (hsame : x.feedbackType = t) :
    submitFeedbackCore db inp uid ac =
      (⟨200, "Feedback removed (toggled off)", none, none⟩,
       { db with feedback := db.feedback.filter fun row => row.id ≠ x.id }) := by
  unfold submitFeedbackCore
  rw [if_neg h1, if_neg h2, hclass]
  simp only [hgd, hfind]
  rw [if_pos hsame]

/-- The toggle core when a row with a different reaction exists at the
key: the row is updated in place. -/
theorem submitFeedbackCore_update (db : DB) (inp : FeedbackInput) (uid ac : Nat)
    (t : String) (x : FeedbackRow) (pos : Int)
    (h1 : ¬(inp.feedbackType = "article" ∧ ac = 0))
    (h2 : ¬(inp.feedbackType = "article" ∧
      positionOutOfRange inp.articlePosition ac = true))
    (hclass : classifyRating inp.rating = some t)
    (hgd : inp.articlePosition.getD 0 = pos)
    (hfind : db.feedback.find? (feedbackKey inp.runId uid pos) = some x)
    (hdiff : ¬ x.feedbackType = t) :
    submitFeedbackCore db inp uid ac =
      (⟨200, "Feedback updated successfully", none, none⟩,
       { db with feedback := db.feedback.map fun row =>
           if row.id == x.id then { row with feedbackType := t, createdAt := inp.now }
           else row }) := by
  unfold submitFeedbackCore
  rw [if_neg h1, if_neg h2, hclass]
  simp only [hgd, hfind]
  rw [if_neg hdiff]

/-- C10: the feedback endpoint accepts only integer ratings 1 through
5 (anything else gets a 400 with the store unchanged); ratings 4 and 5
are stored as like, 1 and 2 as dislike; and a rating of exactly 3
returns a success response while creating, updating or deleting
nothing: the feedback store is unchanged by neutral submissions. -/
theorem c10_rating_mapping :
    (classifyRating 4 = some "like" ∧ classifyRating 5 = some "like"
      ∧ classifyRating 1 = some "dislike" ∧ classifyRating 2 = some "dislike"
      ∧ classifyRating 3 = none)
    ∧ (∀ (db : DB) (inp : FeedbackInput), inp.feedbackType = "overall" →
        (inp.rating < 1 ∨ inp.rating > 5) →
        submitFeedback db inp =
          (⟨400, "rating must be an integer between 1 and 5", none, none⟩, db))
    ∧ (∀ (db : DB) (inp : FeedbackInput) (run : Run),
        inp.feedbackType = "overall" → inp.rating = 3 → inp.userId = none →
        db.runs.find? (fun r => r.runId == inp.runId) = some run →
        submitFeedback db inp =
          (⟨200, "Neutral feedback received but not stored", none, none⟩, db))
    ∧ (∀ (db : DB) (inp : FeedbackInput) (run : Run) (t : String),
        inp.feedbackType = "overall" → inp.articlePosition = none →
        inp.userId = none → 1 ≤ inp.rating → inp.rating ≤ 5 →
        classifyRating inp.rating = some t →
        db.runs.find? (fun r => r.runId == inp.runId) = some run →
        db.feedback.find? (feedbackKey inp.runId run.userId 0) = none →
        (submitFeedback db inp).2.feedback =
          db.feedback ++ [⟨db.nextFeedbackId, inp.runId, run.userId, t, 0, inp.now⟩]) := by
  refine ⟨by decide, ?_, ?_, ?_⟩
  · intro db inp hty hr
    have h1 : ¬(inp.feedbackType ≠ "overall" ∧ inp.feedbackType ≠ "article") := by
      rw [hty]; intro h; exact h.1 rfl
    unfold submitFeedback
    rw [if_neg h1, if_pos hr]
  · intro db inp run hty hr3 huid hrun
    rw [submitFeedback_overall db inp run hty (by omega) (by omega) huid hrun]
    exact submitFeedbackCore_neutral db inp run.userId _ hty (by rw [hr3]; decide)
  · intro db inp run t hty hpos huid hr1 hr5 hclass hrun hfind
    have hap : inp.feedbackType = "article" → inp.articlePosition ≠ none := by
      rw [hty]; intro h; exact absurd h (by decide)
    have hg : inp.articlePosition.getD 0 = 0 := by rw [hpos]; rfl
    have ha1 : ¬(inp.feedbackType = "article" ∧ articleCountOf db inp.runId = 0) := by
      rw [hty]; intro h; exact absurd h.1 (by decide)
    have ha2 : ¬(inp.feedbackType = "article" ∧
        positionOutOfRange inp.articlePosition (articleCountOf db inp.runId) = true) := by
      rw [hty]; intro h; exact absurd h.1 (by decide)
    rw [submitFeedback_valid db inp run (articleCountOf db inp.runId) (Or.inl hty)
          hr1 hr5 hap huid hrun rfl,
        submitFeedbackCore_insert db inp run.userId _ t 0 ha1 ha2 hclass hg hfind]

/-- Sample run for the feedback witnesses. -/
def runW : Run := ⟨1, 1, 7, Stage.completed, none, none, 0, 0⟩

/-- Sample store for the feedback witnesses: one run, no feedback. -/
def dbW : DB := ⟨[], [], [runW], [], [], [], 2, 0⟩

/-- Sample overall-feedback input with the given rating. -/
def inpW (rating : Int) : FeedbackInput := ⟨1, "overall", rating, none, none, 100⟩

/-- Witness for c10_rating_mapping at concrete inputs. -/
theorem c10_rating_mapping_witness :
    submitFeedback dbW (inpW 6) =
      (⟨400, "rating must be an integer between 1 and 5", none, none⟩, dbW)
    ∧ submitFeedback dbW (inpW 3) =
      (⟨200, "Neutral feedback received but not stored", none, none⟩, dbW)
    ∧ (submitFeedback dbW (inpW 4)).2.feedback = [⟨0, 1, 7, "like", 0, 100⟩]
    ∧ (submitFeedback dbW (inpW 1)).2.feedback = [⟨0, 1, 7, "dislike", 0, 100⟩] := by
  refine ⟨?_, ?_, ?_, ?_⟩
  · exact c10_rating_mapping.2.1 dbW (inpW 6) rfl (by decide)
  · exact c10_rating_mapping.2.2.1 dbW (inpW 3) runW rfl rfl rfl rfl
  · rw [c10_rating_mapping.2.2.2 dbW (inpW 4) runW "like" rfl rfl rfl
      (by decide) (by decide) rfl rfl rfl]
    rfl
  · rw [c10_rating_mapping.2.2.2 dbW (inpW 1) runW "dislike" rfl rfl rfl
      (by decide) (by decide) rfl rfl rfl]
    rfl

/-- C9: toggle semantics of every feedback key (run_id, user_id,
article_position) — the overall key at position 0 as well as article
keys at any valid position 1..article_count.  Starting from no row for
the key, submitting a reaction stores exactly one row and submitting
the same reaction again deletes it, leaving no row for the key; when
one row with a different reaction exists, a submission updates that
single row in place to the new reaction (same id, still exactly one
row); and a store holding at most one row for the key still holds at
most one row after any such submission. -/
theorem c9_feedback_toggle (db : DB) (inp : FeedbackInput) (run : Run) (t : String)
    (pos : Int)
    (hty : inp.feedbackType = "overall" ∨ inp.feedbackType = "article")
    (hart : inp.feedbackType = "article" →
      ∃ p : Int, inp.articlePosition = some p ∧ 1 ≤ p ∧
        p ≤ (articleCountOf db inp.runId : Int))
    (huid : inp.userId = none)
    (hr1 : 1 ≤ inp.rating) (hr5 : inp.rating ≤ 5)
    (hclass : classifyRating inp.rating = some t)
    (hrun : db.runs.find? (fun r => r.runId == inp.runId) = some run)
    (hgd : inp.articlePosition.getD 0 = pos) :
    (db.feedback.find? (feedbackKey inp.runId run.userId pos) = none →
      (submitFeedback db inp).2.feedback.filter (feedbackKey inp.runId run.userId pos) =
        [⟨db.nextFeedbackId, inp.runId, run.userId, t, pos, inp.now⟩]
      ∧ (submitFeedback (submitFeedback db inp).2 inp).2.feedback.filter
          (feedbackKey inp.runId run.userId pos) = [])
    ∧ (∀ x : FeedbackRow,
        db.feedback.filter (feedbackKey inp.runId run.userId pos) = [x] →
        ¬ x.feedbackType = t →
        (submitFeedback db inp).2.feedback.filter (feedbackKey inp.runId run.userId pos) =
          [{ x with feedbackType := t, createdAt := inp.now }])
    ∧ ((db.feedback.filter (feedbackKey inp.runId run.userId pos)).length ≤ 1 →
        ((submitFeedback db inp).2.feedback.filter
          (feedbackKey inp.runId run.userId pos)).length ≤ 1) := by
  have hap : inp.feedbackType = "article" → inp.articlePosition ≠ none := by
    intro ha
    obtain ⟨p, hp, -, -⟩ := hart ha
    rw [hp]
    intro hc
    exact Option.noConfusion hc
  have h1 : ¬(inp.feedbackType = "article" ∧ articleCountOf db inp.runId = 0) := by
    rintro ⟨ha, hz⟩
    obtain ⟨p, -, hp1, hp2⟩ := hart ha
    rw [hz] at hp2
    omega
  have h2 : ¬(inp.feedbackType = "article" ∧
      positionOutOfRange inp.articlePosition (articleCountOf db inp.runId) = true) := by
    rintro ⟨ha, hoor⟩
    obtain ⟨p, hp, hp1, hp2⟩ := hart ha
    rw [hp] at hoor
    simp only [positionOutOfRange, Bool.or_eq_true, decide_eq_true_eq] at hoor
    omega
  refine ⟨?_, ?_, ?_⟩
  · intro hfind
    have hnil : db.feedback.filter (feedbackKey inp.runId run.userId pos) = [] := by
      rw [List.filter_eq_nil_iff]
      exact List.find?_eq_none.mp hfind
    have hkeynew : feedbackKey inp.runId run.userId pos
        ⟨db.nextFeedbackId, inp.runId, run.userId, t, pos, inp.now⟩ = true := by
      simp [feedbackKey]
    rw [submitFeedback_valid db inp run (articleCountOf db inp.runId) hty hr1 hr5
          hap huid hrun rfl,
        submitFeedbackCore_insert db inp run.userId _ t pos h1 h2 hclass hgd hfind]
    constructor
    · show (db.feedback ++ [_]).filter (feedbackKey inp.runId run.userId pos) = _
      rw [List.filter_append, hnil, List.filter_cons_of_pos hkeynew]
      rfl
    · have hrun1 : ({ db with
          feedback := db.feedback ++
            [⟨db.nextFeedbackId, inp.runId, run.userId, t, pos, inp.now⟩],
          nextFeedbackId := db.nextFeedbackId + 1 } : DB).runs.find?
            (fun r => r.runId == inp.runId) = some run := hrun
      rw [submitFeedback_valid _ inp run (articleCountOf db inp.runId) hty hr1 hr5
            hap huid hrun1 rfl]
      have hfind1 : (db.feedback ++
          [(⟨db.nextFeedbackId, inp.runId, run.userId, t, pos, inp.now⟩ : FeedbackRow)]).find?
            (feedbackKey inp.runId run.userId pos) =
          some ⟨db.nextFeedbackId, inp.runId, run.userId, t, pos, inp.now⟩ := by
        rw [List.find?_append, hfind]
        rw [List.find?_cons_of_pos _ hkeynew]
        rfl
      rw [submitFeedbackCore_delete _ inp run.userId _ t _ pos h1 h2 hclass hgd hfind1 rfl]
      rw [List.filter_eq_nil_iff]
      intro a ha
      rcases List.mem_filter.mp ha with ⟨hmem, hne⟩
      rcases List.mem_append.mp hmem with hold | hnew
      · exact List.find?_eq_none.mp hfind a hold
      · intro _
        simp at hne
        exact hne (by rw [List.mem_singleton.mp hnew])
  · intro x hone hdiff
    have hfind := find?_eq_of_filter_eq_single _ db.feedback x hone
    rw [submitFeedback_valid db inp run (articleCountOf db inp.runId) hty hr1 hr5
          hap huid hrun rfl,
        submitFeedbackCore_update db inp run.userId _ t x pos h1 h2 hclass hgd hfind hdiff]
    show (db.feedback.map _).filter (feedbackKey inp.runId run.userId pos) = _
    rw [List.filter_map]
    have hcong : db.feedback.filter
        ((feedbackKey inp.runId run.userId pos) ∘ fun row =>
          if row.id == x.id then { row with feedbackType := t, createdAt := inp.now }
          else row) =
        db.feedback.filter (feedbackKey inp.runId run.userId pos) := by
      apply List.filter_congr
      intro a _
      by_cases hid : a.id = x.id
      · simp [hid, feedbackKey]
      · simp [hid]
    rw [hcong, hone]
    simp
  · intro hcount
    rw [submitFeedback_valid db inp run (articleCountOf db inp.runId) hty hr1 hr5
          hap huid hrun rfl]
    cases hfind : db.feedback.find? (feedbackKey inp.runId run.userId pos) with
    | none =>
      rw [submitFeedbackCore_insert db inp run.userId _ t pos h1 h2 hclass hgd hfind]
      have hnil : db.feedback.filter (feedbackKey inp.runId run.userId pos) = [] := by
        rw [List.filter_eq_nil_iff]
        exact List.find?_eq_none.mp hfind
      show ((db.feedback ++ [_]).filter (feedbackKey inp.runId run.userId pos)).length ≤ 1
      rw [List.filter_append, hnil]
      cases hk : feedbackKey inp.runId run.userId pos
          ⟨db.nextFeedbackId, inp.runId, run.userId, t, pos, inp.now⟩ <;> simp [hk]
    | some x =>
      by_cases hsame : x.feedbackType = t
      · rw [submitFeedbackCore_delete db inp run.userId _ t x pos h1 h2 hclass hgd
            hfind hsame]
        exact le_trans (length_filter_filter_le _ _ _) hcount
      · rw [submitFeedbackCore_update db inp run.userId _ t x pos h1 h2 hclass hgd
            hfind hsame]
        show ((db.feedback.map _).filter (feedbackKey inp.runId run.userId pos)).length ≤ 1
        rw [List.filter_map]
        have hcong : db.feedback.filter
            ((feedbackKey inp.runId run.userId pos) ∘ fun row =>
              if row.id == x.id then { row with feedbackType := t, createdAt := inp.now }
              else row) =
            db.feedback.filter (feedbackKey inp.runId run.userId pos) := by
          apply List.filter_congr
          intro a _
          by_cases hid : a.id = x.id
          · simp [hid, feedbackKey]
          · simp [hid]
        rw [hcong, List.length_map]
        exact hcount

/-- Sample curator log for the article-feedback witness: run 1 has
three stored articles. -/
def clogW : CuratorLog := ⟨1, 7, [], 3, some "raw", ""⟩

/-- Sample store for the article-feedback witness: one run with a
curator log carrying an article count of 3, no feedback yet. -/
def dbWa : DB := ⟨[], [], [runW], [clogW], [], [], 2, 0⟩

/-- Sample article-feedback input at position 2 with the given
rating. -/
def inpWa (rating : Int) : FeedbackInput := ⟨1, "article", rating, some 2, none, 100⟩

/-- Witness for c9_feedback_toggle at an article key: a like on
article position 2 submitted twice first stores one row at the key and
then removes it; a dislike submitted over that stored like updates the
single row in place. -/
theorem c9_feedback_toggle_witness :
    ((submitFeedback dbWa (inpWa 4)).2.feedback.filter (feedbackKey 1 7 2) =
      [⟨0, 1, 7, "like", 2, 100⟩]
    ∧ (submitFeedback (submitFeedback dbWa (inpWa 4)).2 (inpWa 4)).2.feedback.filter
        (feedbackKey 1 7 2) = [])
    ∧ (submitFeedback (submitFeedback dbWa (inpWa 4)).2 (inpWa 1)).2.feedback.filter
        (feedbackKey 1 7 2) = [⟨0, 1, 7, "dislike", 2, 100⟩] := by
  constructor
  · exact (c9_feedback_toggle dbWa (inpWa 4) runW "like" 2 (Or.inr rfl)
      (fun _ => ⟨2, rfl, by decide, by decide⟩) rfl (by decide) (by decide)
      (by decide) rfl rfl).1 rfl
  · have h1 : (submitFeedback dbWa (inpWa 4)).2.feedback.filter (feedbackKey 1 7 2) =
        [⟨0, 1, 7, "like", 2, 100⟩] :=
      ((c9_feedback_toggle dbWa (inpWa 4) runW "like" 2 (Or.inr rfl)
        (fun _ => ⟨2, rfl, by decide, by decide⟩) rfl (by decide) (by decide)
        (by decide) rfl rfl).1 rfl).1
    exact (c9_feedback_toggle (submitFeedback dbWa (inpWa 4)).2 (inpWa 1) runW "dislike" 2
      (Or.inr rfl) (fun _ => ⟨2, rfl, by decide, by decide⟩) rfl (by decide) (by decide)
      (by decide) (by decide) rfl).2.1
      ⟨0, 1, 7, "like", 2, 100⟩ h1 (by decide)

/-- Mapping a function that does not change whether the predicate
holds commutes with find?. -/
theorem find?_map_invariant {α : Type} (p : α → Bool) (f : α → α)
    (hf : ∀ a, p (f a) = p a) : ∀ l : List α, (l.map f).find? p = (l.find? p).map f := by
  intro l
  induction l with
  | nil => rfl
  | cons a l ih =>
    by_cases hp : p a = true
    · rw [List.map_cons, List.find?_cons_of_pos _ (by rw [hf]; exact hp),
        List.find?_cons_of_pos _ hp]
      rfl
    · rw [List.map_cons, List.find?_cons_of_neg _ (by rw [hf]; exact hp),
        List.find?_cons_of_neg _ hp, ih]

/-! ## Lemmas about the trigger pre-check -/

/-- The accumulator step of the ORDER BY created_at DESC LIMIT 1
lookup only ever returns an element of the list or the accumulator. -/
theorem foldl_pick_mem : ∀ (l : List Run) (acc : Option Run) (r : Run),
    l.foldl (fun acc r =>
      match acc with
      | none => some r
      | some m => if r.createdAt > m.createdAt then some r else some m) acc = some r →
    r ∈ l ∨ acc = some r := by
  intro l
  induction l with
  | nil => intro acc r h; right; exact h
  | cons a l ih =>
    intro acc r h
    rw [List.foldl_cons] at h
    rcases ih _ r h with hmem | hacc
    · exact Or.inl (List.mem_cons_of_mem a hmem)
    · cases acc with
      | none =>
        simp only at hacc
        left
        rw [← Option.some_inj.mp hacc]
        exact List.mem_cons_self a l
      | some m =>
        dsimp only at hacc
        by_cases hgt : a.createdAt > m.createdAt
        · rw [if_pos hgt] at hacc
          left
          rw [← Option.some_inj.mp hacc]
          exact List.mem_cons_self a l
        · rw [if_neg hgt] at hacc
          right
          exact hacc

/-- The accumulator step never loses a value: starting from a
non-empty list or from some accumulator it returns some result. -/
theorem foldl_pick_ne_none : ∀ (l : List Run) (acc : Option Run),
    l.foldl (fun acc r =>
      match acc with
      | none => some r
      | some m => if r.createdAt > m.createdAt then some r else some m) acc = none →
    l = [] ∧ acc = none := by
  intro l
  induction l with
  | nil => intro acc h; exact ⟨rfl, h⟩
  | cons a l ih =>
    intro acc h
    rw [List.foldl_cons] at h
    rcases ih _ h with ⟨-, hstep⟩
    cases acc with
    | none => simp at hstep
    | some m =>
      dsimp only at hstep
      by_cases hgt : a.createdAt > m.createdAt
      · rw [if_pos hgt] at hstep; simp at hstep
      · rw [if_neg hgt] at hstep; simp at hstep

/-- When the pre-check returns a run, it is a working run of the
brew. -/
theorem latestWorkingRun_some (db : DB) (brewId : Nat) (r : Run)
    (h : latestWorkingRun db brewId = some r) :
    r ∈ db.runs ∧ r.brewId = brewId ∧ isWorking r.currentStage = true := by
  unfold latestWorkingRun at h
  rcases foldl_pick_mem _ none r h with hmem | habs
  · rcases List.mem_filter.mp hmem with ⟨hin, hpred⟩
    simp only [Bool.and_eq_true, beq_iff_eq] at hpred
    exact ⟨hin, hpred.1, hpred.2⟩
  · cases habs

/-- When the pre-check returns nothing, no working run of the brew
exists. -/
theorem latestWorkingRun_none (db : DB) (brewId : Nat)
    (h : latestWorkingRun db brewId = none) :
    ∀ r ∈ db.runs, ¬(r.brewId = brewId ∧ isWorking r.currentStage = true) := by
  unfold latestWorkingRun at h
  rcases foldl_pick_ne_none _ none h with ⟨hnil, -⟩
  intro r hr ⟨hb, hw⟩
  have : r ∈ db.runs.filter fun x => x.brewId == brewId && isWorking x.currentStage := by
    rw [List.mem_filter]
    refine ⟨hr, ?_⟩
    simp [hb, hw]
  rw [hnil] at this
  cases this

/-- C6: when a brew that exists and is active already has a run in a
working stage, the manual trigger returns 409 carrying the id and
stage of an existing working run of that brew and inserts nothing:
the store is returned unchanged. -/
theorem c6_trigger_conflict (db : DB) (brewId : Nat) (now : Int) (pipelineOk : Bool)
    (brew : Brew) (user : User) (r0 : Run)
    (hbrew : db.brews.find? (fun b => b.brewId == brewId) = some brew)
    (huser : db.users.find? (fun u => u.userId == brew.userId) = some user)
    (hactive : brew.isActive = true)
    (hr0 : r0 ∈ db.runs) (hr0b : r0.brewId = brewId)
    (hr0w : isWorking r0.currentStage = true) :
    ∃ r, r ∈ db.runs ∧ r.brewId = brewId ∧ isWorking r.currentStage = true ∧
      triggerBrew db brewId now pipelineOk =
        (⟨409, "Run already in progress", some r.runId, some r.currentStage⟩, db) := by
  cases hlw : latestWorkingRun db brewId with
  | none => exact absurd ⟨hr0b, hr0w⟩ (latestWorkingRun_none db brewId hlw r0 hr0)
  | some r =>
    obtain ⟨hmem, hb, hw⟩ := latestWorkingRun_some db brewId r hlw
    refine ⟨r, hmem, hb, hw, ?_⟩
    unfold triggerBrew
    simp only [hbrew, huser, hlw]
    rw [if_neg (by simp [hactive])]

/-- Sample data for the trigger and stage-worker witnesses. -/
def userC : User := ⟨7, true, 0⟩

/-- Sample active brew owned by userC. -/
def brewC : Brew := ⟨1, 7, true, 10, none⟩

/-- Sample working run of brewC (curator stage). -/
def runC : Run := ⟨1, 1, 7, Stage.curator, none, none, 0, 0⟩

/-- Sample store holding userC, brewC and runC. -/
def dbC : DB := ⟨[userC], [brewC], [runC], [], [], [], 2, 0⟩

/-- Witness for c6_trigger_conflict at the sample store. -/
theorem c6_trigger_conflict_witness :
    triggerBrew dbC 1 500 true =
      (⟨409, "Run already in progress", some 1, some Stage.curator⟩, dbC) := by
  obtain ⟨r, hmem, -, -, heq⟩ :=
    c6_trigger_conflict dbC 1 500 true brewC userC runC rfl rfl rfl
      (by decide) rfl rfl
  have hr : r = runC := by
    have h2 := hmem
    simp only [dbC, List.mem_singleton] at h2
    exact h2
  rw [heq, hr]
  rfl

/-- C3: a stage worker invoked on an existing run whose current_stage
is not its own expected stage returns a wrong-stage 400 error and
returns the store unchanged: no run, stage output record, brew or
feedback mutation. -/
theorem c3_wrong_stage :
    (∀ (db : DB) (brewId runId : Nat) (sc : CuratorScenario)
        (brew : Brew) (user : User) (run : Run),
      db.brews.find? (fun b => b.brewId == brewId && b.isActive) = some brew →
      db.users.find? (fun u => u.userId == brew.userId) = some user →
      db.runs.find? (fun r => r.runId == runId && r.brewId == brewId) = some run →
      run.currentStage ≠ Stage.curator →
      newsCurator db brewId runId sc =
        (⟨400, "Invalid stage, expected curator", none, none⟩, db))
    ∧ (∀ (db : DB) (runId : Nat) (sc : EditorScenario)
        (run : Run) (brew : Brew) (user : User),
      db.runs.find? (fun r => r.runId == runId) = some run →
      db.brews.find? (fun b => b.brewId == run.brewId) = some brew →
      db.users.find? (fun u => u.userId == run.userId) = some user →
      run.currentStage ≠ Stage.editor →
      newsEditor db runId sc =
        (⟨400, "Run stage is not editor", none, none⟩, db))
    ∧ (∀ (db : DB) (runId : Nat) (sc : DispatchScenario)
        (run : Run) (brew : Brew) (user : User),
      db.runs.find? (fun r => r.runId == runId) = some run →
      db.brews.find? (fun b => b.brewId == run.brewId) = some brew →
      db.users.find? (fun u => u.userId == run.userId) = some user →
      run.currentStage ≠ Stage.dispatcher →
      emailDispatcher db runId sc =
        (⟨400, "Run stage is not dispatcher", none, none⟩, db)) := by
  refine ⟨?_, ?_, ?_⟩
  · intro db brewId runId sc brew user run hbrew huser hrun hstage
    unfold newsCurator
    simp only [hbrew, huser, hrun]
    rw [if_pos hstage]
  · intro db runId sc run brew user hrun hbrew huser hstage
    unfold newsEditor
    simp only [hrun, hbrew, huser]
    rw [if_pos hstage]
  · intro db runId sc run brew user hrun hbrew huser hstage
    unfold emailDispatcher
    simp only [hrun, hbrew, huser]
    rw [if_pos hstage]

/-- Sample run of brewC parked in the editor stage. -/
def runCe : Run := ⟨1, 1, 7, Stage.editor, none, none, 0, 0⟩

/-- Sample store holding userC, brewC and runCe. -/
def dbCe : DB := ⟨[userC], [brewC], [runCe], [], [], [], 2, 0⟩

/-- Witness for c3_wrong_stage: the curator worker on an editor-stage
run, and the editor and dispatcher workers on a curator-stage run. -/
theorem c3_wrong_stage_witness :
    newsCurator dbCe 1 1 ⟨none, none, 0⟩ =
      (⟨400, "Invalid stage, expected curator", none, none⟩, dbCe)
    ∧ newsEditor dbC 1 ⟨none, none, 0⟩ =
      (⟨400, "Run stage is not editor", none, none⟩, dbC)
    ∧ emailDispatcher dbC 1 ⟨true, none, 0⟩ =
      (⟨400, "Run stage is not dispatcher", none, none⟩, dbC) :=
  ⟨c3_wrong_stage.1 dbCe 1 1 ⟨none, none, 0⟩ brewC userC runCe rfl rfl rfl (by decide),
   c3_wrong_stage.2.1 dbC 1 ⟨none, none, 0⟩ runC brewC userC rfl rfl rfl (by decide),
   c3_wrong_stage.2.2 dbC 1 ⟨true, none, 0⟩ runC brewC userC rfl rfl rfl (by decide)⟩

/-- C5: after a dispatcher invocation whose mail send succeeded, all
three updates hold together in the resulting store (run completed,
email_sent true with timestamp, brew last_sent_date set); the model
applies them as one step, matching the single-transaction commit of
the source.  After a failed send none of the three is applied: the run
moves to failed with failed_stage = dispatcher, and the editor logs
and brews tables are returned exactly as they were. -/
theorem c5_dispatcher_tx (db : DB) (runId : Nat) (sc : DispatchScenario)
    (run : Run) (brew : Brew) (user : User) (elog : EditorLog) (draft : EditorDraft)
    (hrun : db.runs.find? (fun r => r.runId == runId) = some run)
    (hbrew : db.brews.find? (fun b => b.brewId == run.brewId) = some brew)
    (huser : db.users.find? (fun u => u.userId == run.userId) = some user)
    (hstage : run.currentStage = Stage.dispatcher)
    (helog : db.editorLogs.find? (fun el => el.runId == runId) = some elog)
    (hdraft : elog.editorialContent = some draft) :
    (sc.sendOk = true →
      (emailDispatcher db runId sc).1 = ⟨200, "Email sent successfully", none, none⟩
      ∧ (emailDispatcher db runId sc).2.runs.find? (fun r => r.runId == runId) =
          some { run with currentStage := Stage.completed, updatedAt := sc.now }
      ∧ (emailDispatcher db runId sc).2.editorLogs.find? (fun el => el.runId == runId) =
          some { elog with emailSent := true, emailSentTime := some sc.now }
      ∧ (emailDispatcher db runId sc).2.brews.find? (fun b => b.brewId == run.brewId) =
          some { brew with lastSentDate := some sc.now })
    ∧ (sc.sendOk = false →
      (emailDispatcher db runId sc).1 = ⟨500, "exception", none, none⟩
      ∧ (emailDispatcher db runId sc).2.runs.find? (fun r => r.runId == runId) =
          some { run with
                  currentStage := Stage.failed
                  failedStage := some Stage.dispatcher
                  errorMessage := some "SMTP error"
                  updatedAt := sc.now }
      ∧ (emailDispatcher db runId sc).2.editorLogs = db.editorLogs
      ∧ (emailDispatcher db runId sc).2.brews = db.brews) := by
  have hrunfound : run.runId = runId := by simpa using List.find?_some hrun
  have hbrewfound : brew.brewId = run.brewId := by simpa using List.find?_some hbrew
  have helogfound : elog.runId = runId := by simpa using List.find?_some helog
  have hruns : ∀ (g : Run → Run), (∀ a : Run, (g a).runId = a.runId) →
      (db.runs.map fun r => if r.runId == runId then g r else r).find?
        (fun r => r.runId == runId) = some (g run) := by
    intro g hg
    rw [find?_map_invariant (fun r => r.runId == runId)
      (fun r => if r.runId == runId then g r else r)
      (by intro a
          dsimp only
          by_cases h : (a.runId == runId) = true
          · rw [if_pos h]; simp only [hg]
          · rw [if_neg h]) db.runs, hrun]
    simp [hrunfound]
  constructor
  · intro hsend
    have he : emailDispatcher db runId sc =
        (⟨200, "Email sent successfully", none, none⟩,
         markEmailSent (setBrewLastSent (advanceRun db runId .completed sc.now)
           run.brewId sc.now) runId sc.now) := by
      unfold emailDispatcher
      simp only [hrun, hbrew, huser, helog, hdraft]
      rw [if_neg (by simp [hstage]), if_pos hsend]
    rw [he]
    refine ⟨rfl, ?_, ?_, ?_⟩
    · show ((advanceRun db runId .completed sc.now).runs.find? fun r =>
        r.runId == runId) = _
      exact hruns _ (fun a => rfl)
    · show ((db.editorLogs.map fun el =>
        if el.runId == runId then
          { el with emailSent := true, emailSentTime := some sc.now }
        else el).find? fun el => el.runId == runId) = _
      rw [find?_map_invariant (fun el => el.runId == runId)
        (fun el => if el.runId == runId then
          { el with emailSent := true, emailSentTime := some sc.now } else el)
        (by intro a
            dsimp only
            by_cases h : (a.runId == runId) = true
            · rw [if_pos h]
            · rw [if_neg h]) db.editorLogs, helog]
      simp [helogfound]
    · show ((db.brews.map fun b =>
        if b.brewId == run.brewId then { b with lastSentDate := some sc.now }
        else b).find? fun b => b.brewId == run.brewId) = _
      rw [find?_map_invariant (fun b => b.brewId == run.brewId)
        (fun b => if b.brewId == run.brewId then
          { b with lastSentDate := some sc.now } else b)
        (by intro a
            dsimp only
            by_cases h : (a.brewId == run.brewId) = true
            · rw [if_pos h]
            · rw [if_neg h]) db.brews, hbrew]
      simp [hbrewfound]
  · intro hsend
    have he : emailDispatcher db runId sc =
        (⟨500, "exception", none, none⟩,
         failRun db runId .dispatcher "SMTP error" sc.now) := by
      unfold emailDispatcher
      simp only [hrun, hbrew, huser, helog, hdraft]
      rw [if_neg (by simp [hstage]), if_neg (by simp [hsend])]
    rw [he]
    exact ⟨rfl, hruns _ (fun a => rfl), rfl, rfl⟩

/-- Sample run of brewC in the dispatcher stage. -/
def runCd : Run := ⟨1, 1, 7, Stage.dispatcher, none, none, 0, 0⟩

/-- Sample editorial draft for the dispatcher witnesses. -/
def draftC : EditorDraft := ⟨"subject", "hello", [], "bye"⟩

/-- Sample editor log of runCd holding a parsed draft, not yet sent. -/
def elogC : EditorLog := ⟨1, 7, 1, "", some "raw", some draftC, false, none⟩

/-- Sample store for the dispatcher witnesses. -/
def dbCd : DB := ⟨[userC], [brewC], [runCd], [], [elogC], [], 2, 0⟩

/-- Witness for c5_dispatcher_tx: a successful and a failed send on
the sample store. -/
theorem c5_dispatcher_tx_witness :
    ((emailDispatcher dbCd 1 ⟨true, none, 50⟩).1 =
        ⟨200, "Email sent successfully", none, none⟩
      ∧ (emailDispatcher dbCd 1 ⟨true, none, 50⟩).2.runs.find?
          (fun r => r.runId == 1) =
          some { runCd with currentStage := Stage.completed, updatedAt := 50 }
      ∧ (emailDispatcher dbCd 1 ⟨true, none, 50⟩).2.editorLogs.find?
          (fun el => el.runId == 1) =
          some { elogC with emailSent := true, emailSentTime := some 50 }
      ∧ (emailDispatcher dbCd 1 ⟨true, none, 50⟩).2.brews.find?
          (fun b => b.brewId == 1) =
          some { brewC with lastSentDate := some 50 })
    ∧ ((emailDispatcher dbCd 1 ⟨false, none, 50⟩).1 = ⟨500, "exception", none, none⟩
      ∧ (emailDispatcher dbCd 1 ⟨false, none, 50⟩).2.editorLogs = dbCd.editorLogs
      ∧ (emailDispatcher dbCd 1 ⟨false, none, 50⟩).2.brews = dbCd.brews) := by
  constructor
  · exact (c5_dispatcher_tx dbCd 1 ⟨true, none, 50⟩ runCd brewC userC elogC draftC
      rfl rfl rfl rfl rfl rfl).1 rfl
  · have h := (c5_dispatcher_tx dbCd 1 ⟨false, none, 50⟩ runCd brewC userC elogC draftC
      rfl rfl rfl rfl rfl rfl).2 rfl
    exact ⟨h.1, h.2.2.1, h.2.2.2⟩

/-- C7: the editor invoked on an editor-stage run whose curator log
holds zero articles does not treat the empty input as an error: the
source material it hands to the generation call is the fallback
sentence, and when the call and the parse succeed the handler returns
200, records the structured draft, and advances the run to the
dispatcher stage. -/
theorem c7_editor_zero_articles (db : DB) (runId : Nat) (sc : EditorScenario)
    (run : Run) (brew : Brew) (user : User) (clog : CuratorLog)
    (content : String) (draft : EditorDraft)
    (hrun : db.runs.find? (fun r => r.runId == runId) = some run)
    (hbrew : db.brews.find? (fun b => b.brewId == run.brewId) = some brew)
    (huser : db.users.find? (fun u => u.userId == run.userId) = some user)
    (hstage : run.currentStage = Stage.editor)
    (hclog : db.curatorLogs.find? (fun cl => cl.runId == runId) = some clog)
    (hempty : clog.rawArticles = [])
    (hnoelog : db.editorLogs.find? (fun el => el.runId == runId) = none)
    (hai : sc.aiContent = some content)
    (hparse : sc.parsed = some draft) :
    articlesText clog.rawArticles =
      "No articles found by curator - create valuable content anyway"
    ∧ (newsEditor db runId sc).1 =
        ⟨200, "Briefing content created successfully", none, none⟩
    ∧ (newsEditor db runId sc).2.runs.find? (fun r => r.runId == runId) =
        some { run with currentStage := Stage.dispatcher, updatedAt := sc.now }
    ∧ (newsEditor db runId sc).2.editorLogs.find? (fun el => el.runId == runId) =
        some ⟨runId, run.userId, run.brewId, articlesText clog.rawArticles,
              some content, some draft, false, none⟩ := by
  have hrunfound : run.runId = runId := by simpa using List.find?_some hrun
  have he : newsEditor db runId sc =
      (⟨200, "Briefing content created successfully", none, none⟩,
       advanceRun
         (setEditorialContent
           { db with editorLogs :=
               db.editorLogs ++
                 [⟨runId, run.userId, run.brewId, articlesText clog.rawArticles,
                   some content, none, false, none⟩] }
           runId draft)
         runId .dispatcher sc.now) := by
    unfold newsEditor
    simp only [hrun, hbrew, huser, hclog, hai, hparse]
    rw [if_neg (by simp [hstage])]
  refine ⟨by rw [hempty]; rfl, by rw [he], ?_, ?_⟩
  · rw [he]
    show ((db.runs.map fun r =>
      if r.runId == runId then
        { r with currentStage := Stage.dispatcher, updatedAt := sc.now }
      else r).find? fun r => r.runId == runId) = _
    rw [find?_map_invariant (fun r => r.runId == runId)
      (fun r => if r.runId == runId then
        { r with currentStage := Stage.dispatcher, updatedAt := sc.now } else r)
      (by intro a
          dsimp only
          by_cases h : (a.runId == runId) = true
          · rw [if_pos h]
          · rw [if_neg h]) db.runs, hrun]
    simp [hrunfound]
  · rw [he]
    show (((db.editorLogs ++
        [(⟨runId, run.userId, run.brewId, articlesText clog.rawArticles,
           some content, none, false, none⟩ : EditorLog)]).map fun el =>
          if el.runId == runId then { el with editorialContent := some draft }
          else el).find? fun el => el.runId == runId) = _
    rw [find?_map_invariant (fun el => el.runId == runId)
      (fun el => if el.runId == runId then
        { el with editorialContent := some draft } else el)
      (by intro a
          dsimp only
          by_cases h : (a.runId == runId) = true
          · rw [if_pos h]
          · rw [if_neg h])
      (db.editorLogs ++
        [(⟨runId, run.userId, run.brewId, articlesText clog.rawArticles,
           some content, none, false, none⟩ : EditorLog)]),
      List.find?_append, hnoelog]
    simp

/-- Sample run of brewC in the editor stage. -/
def runCe2 : Run := ⟨1, 1, 7, Stage.editor, none, none, 0, 0⟩

/-- Sample curator log of runCe2 holding zero articles. -/
def clogEmpty : CuratorLog := ⟨1, 7, [], 0, some "raw curator output", ""⟩

/-- Sample store for the zero-article editor witness. -/
def dbE0 : DB := ⟨[userC], [brewC], [runCe2], [clogEmpty], [], [], 2, 0⟩

/-- Witness for c7_editor_zero_articles at the sample store. -/
theorem c7_editor_zero_articles_witness :
    articlesText clogEmpty.rawArticles =
      "No articles found by curator - create valuable content anyway"
    ∧ (newsEditor dbE0 1 ⟨some "draft text", some draftC, 30⟩).1 =
        ⟨200, "Briefing content created successfully", none, none⟩
    ∧ (newsEditor dbE0 1 ⟨some "draft text", some draftC, 30⟩).2.runs.find?
        (fun r => r.runId == 1) =
        some { runCe2 with currentStage := Stage.dispatcher, updatedAt := 30 } := by
  have h := c7_editor_zero_articles dbE0 1 ⟨some "draft text", some draftC, 30⟩
    runCe2 brewC userC clogEmpty "draft text" draftC
    rfl rfl rfl rfl rfl rfl rfl rfl rfl
  exact ⟨h.1, h.2.1, h.2.2.1⟩

/-! ## Lemmas about the scheduler pre-check -/

/-- Working runs of a brew created within the last 2 hours, the
population inspected by the NOT EXISTS clause of the scheduler
query. -/
def countWorkingRecent (db : DB) (brewId : Nat) (now : Int) : Nat :=
  (db.runs.filter fun r =>
    r.brewId == brewId && isWorking r.currentStage
      && decide (r.createdAt > now - 120)).length

/-- A brew the scheduler query returns has no working run created
within the last 2 hours; working runs older than that do not block
it. -/
theorem schedulerDueBrew_no_recent (db : DB) (b : Brew) (now : Int)
    (h : schedulerDueBrew db b now = true) :
    ∀ r ∈ db.runs, r.brewId = b.brewId → isWorking r.currentStage = true →
      r.createdAt ≤ now - 120 := by
  unfold schedulerDueBrew at h
  cases hu : db.users.find? (fun u => u.userId == b.userId) with
  | none => rw [hu] at h; cases h
  | some u =>
    rw [hu] at h
    simp only [Bool.and_eq_true, Bool.not_eq_true'] at h
    have hany := h.2
    intro r hr hb hw
    have hpred := List.any_eq_false.mp hany r hr
    simp only [Bool.and_eq_true, beq_iff_eq, decide_eq_true_eq] at hpred
    by_contra hgt
    exact hpred ⟨⟨hb, hw⟩, by omega⟩

/-- C2, counterexample: a working run created 200 minutes ago does not
stop the scheduler.  In this concrete store the brew has one working
run, the scheduler query still returns the brew as due (the NOT EXISTS
clause only looks back 2 hours), and the sweep then creates a second
working run for the same brew, so the at-most-one-active-run property
and the claim that the query excludes any brew with such a run are
both false. -/
theorem c2_counterexample :
    isWorking ((⟨1, 1, 7, Stage.curator, none, none, 143800, 143800⟩ : Run).currentStage)
      = true
    ∧ schedulerDueBrew
        ⟨[⟨7, true, 0⟩], [⟨1, 7, true, 10, none⟩],
         [⟨1, 1, 7, Stage.curator, none, none, 143800, 143800⟩], [], [], [], 2, 0⟩
        ⟨1, 7, true, 10, none⟩ 144000 = true
    ∧ ((schedulerSweep
        ⟨[⟨7, true, 0⟩], [⟨1, 7, true, 10, none⟩],
         [⟨1, 1, 7, Stage.curator, none, none, 143800, 143800⟩], [], [], [], 2, 0⟩
        144000).runs.filter fun r =>
          r.brewId == 1 && isWorking r.currentStage).length = 2 := by
  refine ⟨rfl, by decide, by decide⟩

/-- C2, amended: the one-active-run guarantee holds as stated for the
manual trigger (any working run, of any age, makes it leave the store
unchanged), but the scheduler pre-check only excludes brews with a
working run created within the last 2 hours: when the scheduler deems
a brew due, every working run of that brew is older than 2 hours, and
the run it then creates is the only working run of the brew created
within the last 2 hours. -/
theorem c2_single_active_recent (db : DB) (b : Brew) (now : Int)
    (hdue : schedulerDueBrew db b now = true) :
    (∀ r ∈ db.runs, r.brewId = b.brewId → isWorking r.currentStage = true →
      r.createdAt ≤ now - 120)
    ∧ countWorkingRecent (createRun db b.brewId b.userId now).2 b.brewId now = 1
    ∧ (∀ (pipelineOk : Bool) (r0 : Run), r0 ∈ db.runs → r0.brewId = b.brewId →
        isWorking r0.currentStage = true →
        (triggerBrew db b.brewId now pipelineOk).2 = db) := by
  have hold := schedulerDueBrew_no_recent db b now hdue
  refine ⟨hold, ?_, ?_⟩
  · unfold countWorkingRecent createRun
    simp only
    rw [List.filter_append]
    have hnil : db.runs.filter (fun r =>
        r.brewId == b.brewId && isWorking r.currentStage
          && decide (r.createdAt > now - 120)) = [] := by
      rw [List.filter_eq_nil_iff]
      intro r hr
      simp only [Bool.and_eq_true, beq_iff_eq, decide_eq_true_eq]
      intro ⟨⟨hb, hw⟩, hgt⟩
      have := hold r hr hb hw
      omega
    rw [hnil, List.filter_cons_of_pos]
    · rfl
    · simp only [Bool.and_eq_true, beq_iff_eq, decide_eq_true_eq, isWorking]
      exact ⟨⟨trivial, trivial⟩, by omega⟩
  · intro pipelineOk r0 hr0 hb0 hw0
    unfold triggerBrew
    cases hbrew : db.brews.find? (fun x => x.brewId == b.brewId) with
    | none => rfl
    | some brew =>
      dsimp only
      cases huser : db.users.find? (fun u => u.userId == brew.userId) with
      | none => rfl
      | some user =>
        dsimp only
        by_cases hact : (!brew.isActive) = true
        · rw [if_pos hact]
        · rw [if_neg hact]
          cases hlw : latestWorkingRun db b.brewId with
          | none => exact absurd ⟨hb0, hw0⟩ (latestWorkingRun_none db b.brewId hlw r0 hr0)
          | some r => rfl

/-- Sample store for the scheduler witness: user 7 with an active brew
due in 10 minutes and no runs at all. -/
def dbY : DB := ⟨[⟨7, true, 0⟩], [⟨1, 7, true, 10, none⟩], [], [], [], [], 1, 0⟩

/-- Sample brew of dbY. -/
def brewY : Brew := ⟨1, 7, true, 10, none⟩

/-- Witness for c2_single_active_recent at the sample store. -/
theorem c2_single_active_recent_witness :
    schedulerDueBrew dbY brewY 144000 = true
    ∧ countWorkingRecent (createRun dbY 1 7 144000).2 1 144000 = 1 :=
  ⟨by decide, (c2_single_active_recent dbY brewY 144000 (by decide)).2.1⟩

/-! ## The stage graph -/

/-- Legal single transitions of current_stage, as written by the three
handlers: each worker advances one step or fails from its own
stage. -/
def stageEdge : Stage → Stage → Bool
  | .curator, .editor => true
  | .editor, .dispatcher => true
  | .dispatcher, .completed => true
  | .curator, .failed => true
  | .editor, .failed => true
  | .dispatcher, .failed => true
  | _, _ => false

/-- Position of a stage along the pipeline; every edge strictly
increases it. -/
def stageRank : Stage → Nat
  | .curator => 0
  | .editor => 1
  | .dispatcher => 2
  | .completed => 3
  | .failed => 4

theorem stageEdge_rank (a b : Stage) (h : stageEdge a b = true) :
    stageRank a < stageRank b := by
  cases a <;> cases b <;> simp_all [stageEdge, stageRank]

theorem stageRank_le (a : Stage) : stageRank a ≤ 4 := by
  cases a <;> simp [stageRank]

theorem stageEdge_completed (b : Stage) : stageEdge Stage.completed b = false := by
  cases b <;> rfl

/-- How one unit of work may move the observed stage of one run id:
leave it unchanged (including still absent), bring it into existence
at curator, or move it along one stage edge.  A run is never
deleted. -/
def stageRel : Option Stage → Option Stage → Prop
  | none, none => True
  | none, some s => s = Stage.curator
  | some s, some u => s = u ∨ stageEdge s u = true
  | some _, none => False

theorem stageRel_refl (o : Option Stage) : stageRel o o := by
  cases o with
  | none => trivial
  | some s => exact Or.inl rfl

/-- The effect of run creation alone: unchanged or newly present at
curator.  Unlike stageRel it is transitive, which the scheduler sweep
(several creations in one step) needs. -/
def insRel (o o' : Option Stage) : Prop :=
  o' = o ∨ (o = none ∧ o' = some Stage.curator)

theorem insRel_refl (o : Option Stage) : insRel o o := Or.inl rfl

theorem insRel_trans (a b c : Option Stage) (h1 : insRel a b) (h2 : insRel b c) :
    insRel a c := by
  rcases h1 with rfl | ⟨rfl, rfl⟩
  · exact h2
  · rcases h2 with rfl | ⟨h, -⟩
    · exact Or.inr ⟨rfl, rfl⟩
    · cases h

theorem insRel_stageRel (a b : Option Stage) (h : insRel a b) : stageRel a b := by
  rcases h with rfl | ⟨rfl, rfl⟩
  · exact stageRel_refl _
  · exact rfl

/-- Collapse consecutive repetitions: the sequence of distinct values
current_stage takes over time. -/
def dedupConsec : List Stage → List Stage
  | [] => []
  | [a] => [a]
  | a :: b :: rest =>
    if a = b then dedupConsec (b :: rest) else a :: dedupConsec (b :: rest)

/-- The stage histories the spec allows: every prefix of the full
pipeline, or a strict prefix of the working stages ended by failed. -/
def allowedHistories : List (List Stage) :=
  [[],
   [Stage.curator],
   [Stage.curator, Stage.editor],
   [Stage.curator, Stage.editor, Stage.dispatcher],
   [Stage.curator, Stage.editor, Stage.dispatcher, Stage.completed],
   [Stage.curator, Stage.failed],
   [Stage.curator, Stage.editor, Stage.failed],
   [Stage.curator, Stage.editor, Stage.dispatcher, Stage.failed]]

/-- Any chain along stage edges that starts at curator is one of the
allowed histories. -/
theorem chain_mem_allowed : ∀ l : List Stage,
    l.head? = some Stage.curator →
    List.Chain' (fun a b => stageEdge a b = true) l →
    l ∈ allowedHistories := by
  intro l hhead hchain
  match l with
  | [] => cases hhead
  | [s1] =>
    have hs1 : s1 = Stage.curator := by simpa using hhead
    subst hs1; decide
  | [s1, s2] =>
    have hs1 : s1 = Stage.curator := by simpa using hhead
    subst hs1
    rw [List.chain'_cons] at hchain
    have h12 := hchain.1
    cases s2 <;> simp_all [stageEdge] <;> decide
  | [s1, s2, s3] =>
    have hs1 : s1 = Stage.curator := by simpa using hhead
    subst hs1
    rw [List.chain'_cons] at hchain
    have h12 := hchain.1
    have hchain2 := hchain.2
    rw [List.chain'_cons] at hchain2
    have h23 := hchain2.1
    cases s2 <;> cases s3 <;> simp_all [stageEdge] <;> decide
  | [s1, s2, s3, s4] =>
    have hs1 : s1 = Stage.curator := by simpa using hhead
    subst hs1
    rw [List.chain'_cons] at hchain
    have h12 := hchain.1
    have hchain2 := hchain.2
    rw [List.chain'_cons] at hchain2
    have h23 := hchain2.1
    have hchain3 := hchain2.2
    rw [List.chain'_cons] at hchain3
    have h34 := hchain3.1
    cases s2 <;> cases s3 <;> cases s4 <;> simp_all [stageEdge] <;> decide
  | s1 :: s2 :: s3 :: s4 :: s5 :: rest =>
    exfalso
    have hs1 : s1 = Stage.curator := by simpa using hhead
    subst hs1
    rw [List.chain'_cons] at hchain
    have h12 := hchain.1
    have hchain2 := hchain.2
    rw [List.chain'_cons] at hchain2
    have h23 := hchain2.1
    have hchain3 := hchain2.2
    rw [List.chain'_cons] at hchain3
    have h34 := hchain3.1
    have hchain4 := hchain3.2
    rw [List.chain'_cons] at hchain4
    have h45 := hchain4.1
    have r2 := stageEdge_rank _ _ h12
    have r3 := stageEdge_rank _ _ h23
    have r4 := stageEdge_rank _ _ h34
    have r5 := stageEdge_rank _ _ h45
    have hb := stageRank_le s5
    have hrank1 : stageRank Stage.curator = 0 := rfl
    have hs4 : stageRank s4 = 3 := by omega
    have hs4c : s4 = Stage.completed := by
      cases s4 <;> simp_all [stageRank]
    rw [hs4c, stageEdge_completed] at h45
    cases h45

/-- A stageRel chain headed by a present stage never loses the run and
only moves along edges: the extracted stage list keeps its head and is
chained by equality-or-edge. -/
theorem chain_filterMap_some : ∀ (l : List (Option Stage)) (s : Stage),
    List.Chain' stageRel (some s :: l) →
    (List.filterMap id (some s :: l)).head? = some s
    ∧ List.Chain' (fun a b => a = b ∨ stageEdge a b = true)
        (List.filterMap id (some s :: l)) := by
  intro l
  induction l with
  | nil =>
    intro s _
    constructor
    · simp
    · simp
  | cons o t ih =>
    intro s h
    rw [List.chain'_cons] at h
    have hrel := h.1
    cases o with
    | none => cases hrel
    | some u =>
      have hsu : s = u ∨ stageEdge s u = true := hrel
      obtain ⟨ihh, ihc⟩ := ih u h.2
      constructor
      · simp
      · have hshape : List.filterMap id (some s :: some u :: t) =
            s :: List.filterMap id (some u :: t) := by simp
        rw [hshape, List.chain'_cons']
        constructor
        · intro y hy
          rw [ihh] at hy
          have : y = u := by have hyy := hy; simp at hyy; exact hyy.symm
          rw [this]
          exact hsu
        · exact ihc

/-- Extracting the observed stages from a stageRel chain whose first
state does not hold the run yet: the result is empty or starts at
curator, and is chained by equality-or-edge. -/
theorem chain_filterMap : ∀ l : List (Option Stage),
    List.Chain' stageRel l →
    (∀ s, l.head? = some (some s) → s = Stage.curator) →
    (l.filterMap id = [] ∨ (l.filterMap id).head? = some Stage.curator)
    ∧ List.Chain' (fun a b => a = b ∨ stageEdge a b = true) (l.filterMap id) := by
  intro l
  induction l with
  | nil => exact fun _ _ => ⟨Or.inl rfl, List.chain'_nil⟩
  | cons o t ih =>
    intro h hh
    cases o with
    | some s =>
      have hs : s = Stage.curator := hh s rfl
      subst hs
      obtain ⟨h1, h2⟩ := chain_filterMap_some t Stage.curator h
      exact ⟨Or.inr h1, h2⟩
    | none =>
      have hh2 : ∀ s, t.head? = some (some s) → s = Stage.curator := by
        intro s hts
        have hr := (List.chain'_cons'.mp h).1 (some s) (by rw [hts]; rfl)
        exact hr
      have hres := ih h.tail hh2
      simpa using hres

/-- Deduplicating an equality-or-edge chain keeps the head and leaves
a strict edge chain. -/
theorem dedupConsec_chain : ∀ l : List Stage,
    List.Chain' (fun a b => a = b ∨ stageEdge a b = true) l →
    (dedupConsec l).head? = l.head?
    ∧ List.Chain' (fun a b => stageEdge a b = true) (dedupConsec l) := by
  intro l
  induction l with
  | nil => exact fun _ => ⟨rfl, List.chain'_nil⟩
  | cons a t ih =>
    intro h
    match t with
    | [] => exact ⟨rfl, by simp [dedupConsec]⟩
    | b :: t2 =>
      rw [List.chain'_cons] at h
      have hab := h.1
      obtain ⟨ihh, ihc⟩ := ih h.2
      by_cases heq : a = b
      · constructor
        · rw [show dedupConsec (a :: b :: t2) = dedupConsec (b :: t2) by
            simp [dedupConsec, heq], ihh]
          simp [heq]
        · rw [show dedupConsec (a :: b :: t2) = dedupConsec (b :: t2) by
            simp [dedupConsec, heq]]
          exact ihc
      · have hedge : stageEdge a b = true := by
          rcases hab with h1 | h1
          · exact absurd h1 heq
          · exact h1
        have hshape : dedupConsec (a :: b :: t2) = a :: dedupConsec (b :: t2) := by
          simp [dedupConsec, heq]
        constructor
        · rw [hshape]; rfl
        · rw [hshape, List.chain'_cons']
          constructor
          · intro y hy
            rw [ihh] at hy
            have : y = b := by have hyy := hy; simp at hyy; exact hyy.symm
            rw [this]
            exact hedge
          · exact ihc

/-! ## Store-level lemmas about run updates and creation -/

/-- A run-tracker UPDATE commutes with the run lookup: the updated
store finds the image of what the original store found. -/
theorem updateRuns_find? (db : DB) (target : Nat) (g : Run → Run)
    (hg : ∀ a : Run, (g a).runId = a.runId) (rid : Nat) :
    (updateRuns db target g).runs.find? (fun r => r.runId == rid) =
      (db.runs.find? (fun r => r.runId == rid)).map
        (fun r => if r.runId == target then g r else r) := by
  unfold updateRuns
  exact find?_map_invariant (fun r => r.runId == rid)
    (fun r => if r.runId == target then g r else r)
    (by intro a
        dsimp only
        by_cases h : (a.runId == target) = true
        · rw [if_pos h, hg a]
        · rw [if_neg h]) db.runs

/-- Observed stage after a run-tracker UPDATE. -/
theorem stageAt_updateRuns (db : DB) (target : Nat) (g : Run → Run)
    (hg : ∀ a : Run, (g a).runId = a.runId) (rid : Nat) :
    stageAt (updateRuns db target g) rid =
      (db.runs.find? (fun r => r.runId == rid)).map
        (fun r => if r.runId == target then (g r).currentStage else r.currentStage) := by
  unfold stageAt
  rw [updateRuns_find? db target g hg rid]
  cases hfr : db.runs.find? (fun r => r.runId == rid) with
  | none => rfl
  | some r =>
    by_cases h : r.runId = target
    · dsimp only [Option.map]
      simp [h]
    · dsimp only [Option.map]
      simp [h]

/-- The observed stage depends only on the runs table. -/
theorem stageAt_of_runs_eq (db db' : DB) (h : db'.runs = db.runs) (rid : Nat) :
    stageAt db' rid = stageAt db rid := by
  unfold stageAt
  rw [h]

/-- Well-formedness depends only on the runs table and the id
sequence. -/
theorem WF_of_runs_eq (db db' : DB) (hr : db'.runs = db.runs)
    (hn : db'.nextRunId = db.nextRunId) (hwf : WF db) : WF db' := by
  unfold WF at hwf ⊢
  rw [hr, hn]
  exact hwf

/-- A run-tracker UPDATE preserves well-formedness. -/
theorem WF_updateRuns (db : DB) (target : Nat) (g : Run → Run)
    (hg : ∀ a : Run, (g a).runId = a.runId) (hwf : WF db) :
    WF (updateRuns db target g) := by
  obtain ⟨hnd, hlt⟩ := hwf
  constructor
  · have heq : (updateRuns db target g).runs.map (fun r => r.runId) =
        db.runs.map (fun r => r.runId) := by
      unfold updateRuns
      rw [List.map_map]
      apply List.map_congr_left
      intro a _
      by_cases h : (a.runId == target) = true
      · simp only [Function.comp_apply, if_pos h, hg a]
      · simp only [Function.comp_apply, if_neg h]
    rw [heq]
    exact hnd
  · intro r hr
    rcases List.mem_map.mp hr with ⟨a, ha, rfl⟩
    show (if a.runId == target then g a else a).runId < db.nextRunId
    by_cases h : (a.runId == target) = true
    · rw [if_pos h, hg a]; exact hlt a ha
    · rw [if_neg h]; exact hlt a ha

/-- Run creation preserves well-formedness: the fresh id is above
every existing id. -/
theorem WF_createRun (db : DB) (brewId userId : Nat) (now : Int) (hwf : WF db) :
    WF (createRun db brewId userId now).2 := by
  obtain ⟨hnd, hlt⟩ := hwf
  constructor
  · show ((db.runs ++
      [(⟨db.nextRunId, brewId, userId, .curator, none, none, now, now⟩ : Run)]).map
        (fun r => r.runId)).Nodup
    rw [List.map_append]
    refine List.Nodup.append hnd (List.nodup_singleton _) ?_
    intro x hx hx2
    rcases List.mem_map.mp hx with ⟨r, hr, rfl⟩
    have hlt2 := hlt r hr
    have : r.runId = db.nextRunId := by simpa using hx2
    omega
  · intro r hr
    show r.runId < db.nextRunId + 1
    rcases List.mem_append.mp hr with h | h
    · have := hlt r h; omega
    · rw [List.mem_singleton.mp h]
      show db.nextRunId < db.nextRunId + 1
      omega

/-- Run creation can only bring the observed stage of an id from
absent to curator. -/
theorem createRun_insRel (db : DB) (brewId userId : Nat) (now : Int) (rid : Nat) :
    insRel (stageAt db rid) (stageAt (createRun db brewId userId now).2 rid) := by
  unfold stageAt createRun
  simp only
  rw [List.find?_append]
  cases hf : db.runs.find? (fun r => r.runId == rid) with
  | some r => exact Or.inl rfl
  | none =>
    by_cases h : (db.nextRunId == rid) = true
    · refine Or.inr ⟨rfl, ?_⟩
      simp [List.find?_cons, h]
    · refine Or.inl ?_
      simp [List.find?_cons, h]

/-- The scheduler loop of run creations respects insRel. -/
theorem foldl_createRun_insRel (now : Int) (rid : Nat) :
    ∀ (bs : List Brew) (db : DB),
      insRel (stageAt db rid)
        (stageAt (bs.foldl (fun d b => (createRun d b.brewId b.userId now).2) db) rid) := by
  intro bs
  induction bs with
  | nil => intro db; exact insRel_refl _
  | cons b bs ih =>
    intro db
    rw [List.foldl_cons]
    exact insRel_trans _ _ _ (createRun_insRel db b.brewId b.userId now rid) (ih _)

/-- The scheduler loop of run creations preserves well-formedness. -/
theorem foldl_createRun_WF (now : Int) :
    ∀ (bs : List Brew) (db : DB), WF db →
      WF (bs.foldl (fun d b => (createRun d b.brewId b.userId now).2) db) := by
  intro bs
  induction bs with
  | nil => intro db h; exact h
  | cons b bs ih =>
    intro db h
    rw [List.foldl_cons]
    exact ih _ (WF_createRun db b.brewId b.userId now h)

/-- The scheduler loop of run creations never touches the stage
output records. -/
theorem foldl_createRun_logs (now : Int) :
    ∀ (bs : List Brew) (db : DB),
      (bs.foldl (fun d b => (createRun d b.brewId b.userId now).2) db).curatorLogs =
        db.curatorLogs
      ∧ (bs.foldl (fun d b => (createRun d b.brewId b.userId now).2) db).editorLogs =
        db.editorLogs := by
  intro bs
  induction bs with
  | nil => intro db; exact ⟨rfl, rfl⟩
  | cons b bs ih =>
    intro db
    rw [List.foldl_cons]
    exact ih _

/-- Every id found by a lookup in a well-formed runs table is found by
the id-only lookup: run ids are unique. -/
theorem find?_runId_of_mem (l : List Run) (hnd : (l.map (fun r => r.runId)).Nodup)
    (run : Run) (hmem : run ∈ l) :
    l.find? (fun r => r.runId == run.runId) = some run := by
  cases hf : l.find? (fun r => r.runId == run.runId) with
  | none =>
    have := List.find?_eq_none.mp hf run hmem
    simp at this
  | some r2 =>
    have hmem2 := List.mem_of_find?_eq_some hf
    have hid : r2.runId = run.runId := by simpa using List.find?_some hf
    have heq : r2 = run :=
      List.inj_on_of_nodup_map hnd hmem2 hmem hid
    rw [heq]

/-! ## Shapes of the handler results -/

/-- Every result of the curator handler: either the store is returned
unchanged (admission failure, including the wrong-stage check), or the
run was found in the curator stage and the store evolved by failing
the run (before or after the raw-response insert) or by the full
update-and-advance. -/
theorem newsCurator_cases (db : DB) (brewId runId : Nat) (sc : CuratorScenario) :
    (newsCurator db brewId runId sc).2 = db
    ∨ ∃ run uid content,
        db.runs.find? (fun r => r.runId == runId && r.brewId == brewId) = some run
        ∧ run.currentStage = Stage.curator
        ∧ ((newsCurator db brewId runId sc).2 =
              failRun db runId Stage.curator "API error" sc.now
          ∨ (newsCurator db brewId runId sc).2 =
              failRun { db with curatorLogs :=
                  db.curatorLogs ++ [⟨runId, uid, [], 0, some content, ""⟩] }
                runId Stage.curator "Failed to parse JSON from AI response" sc.now
          ∨ ∃ articles notes,
              (newsCurator db brewId runId sc).2 =
                advanceRun (updateCuratorLog
                  { db with curatorLogs :=
                      db.curatorLogs ++ [⟨runId, uid, [], 0, some content, ""⟩] }
                  runId articles notes) runId Stage.editor sc.now) := by
  unfold newsCurator
  cases hb : db.brews.find? (fun b => b.brewId == brewId && b.isActive) with
  | none => exact Or.inl rfl
  | some brew =>
    dsimp only
    cases hu : db.users.find? (fun u => u.userId == brew.userId) with
    | none => exact Or.inl rfl
    | some user =>
      dsimp only
      cases hr : db.runs.find? (fun r => r.runId == runId && r.brewId == brewId) with
      | none => exact Or.inl rfl
      | some run =>
        dsimp only
        by_cases hst : run.currentStage ≠ Stage.curator
        · rw [if_pos hst]; exact Or.inl rfl
        · rw [if_neg hst]
          have hst2 : run.currentStage = Stage.curator := not_not.mp hst
          cases ha : sc.aiContent with
          | none => exact Or.inr ⟨run, brew.userId, "", rfl, hst2, Or.inl rfl⟩
          | some content =>
            dsimp only
            cases hp : sc.parsed with
            | none =>
              exact Or.inr ⟨run, brew.userId, content, rfl, hst2, Or.inr (Or.inl rfl)⟩
            | some pr =>
              exact Or.inr ⟨run, brew.userId, content, rfl, hst2,
                Or.inr (Or.inr ⟨pr.articles, pr.curatorNotes, rfl⟩)⟩

/-- Every result of the editor handler: unchanged store, or the run
was found in the editor stage and the store evolved by failing the run
(before or after the raw-response insert) or by the full
update-and-advance. -/
theorem newsEditor_cases (db : DB) (runId : Nat) (sc : EditorScenario) :
    (newsEditor db runId sc).2 = db
    ∨ ∃ run prompt content,
        db.runs.find? (fun r => r.runId == runId) = some run
        ∧ run.currentStage = Stage.editor
        ∧ ((newsEditor db runId sc).2 =
              failRun db runId Stage.editor "API error" sc.now
          ∨ (newsEditor db runId sc).2 =
              failRun { db with editorLogs :=
                  db.editorLogs ++
                    [⟨runId, run.userId, run.brewId, prompt, some content, none, false, none⟩] }
                runId Stage.editor "Failed to process AI response" sc.now
          ∨ ∃ draft,
              (newsEditor db runId sc).2 =
                advanceRun (setEditorialContent
                  { db with editorLogs :=
                      db.editorLogs ++
                        [⟨runId, run.userId, run.brewId, prompt, some content,
                          none, false, none⟩] }
                  runId draft) runId Stage.dispatcher sc.now) := by
  unfold newsEditor
  cases hr : db.runs.find? (fun r => r.runId == runId) with
  | none => exact Or.inl rfl
  | some run =>
    dsimp only
    cases hb : db.brews.find? (fun b => b.brewId == run.brewId) with
    | none => exact Or.inl rfl
    | some brew =>
      dsimp only
      cases hu : db.users.find? (fun u => u.userId == run.userId) with
      | none => exact Or.inl rfl
      | some user =>
        dsimp only
        by_cases hst : run.currentStage ≠ Stage.editor
        · rw [if_pos hst]; exact Or.inl rfl
        · rw [if_neg hst]
          have hst2 : run.currentStage = Stage.editor := not_not.mp hst
          cases hc : db.curatorLogs.find? (fun cl => cl.runId == runId) with
          | none => exact Or.inl rfl
          | some clog =>
            dsimp only
            cases ha : sc.aiContent with
            | none => exact Or.inr ⟨run, "", "", rfl, hst2, Or.inl rfl⟩
            | some content =>
              dsimp only
              cases hp : sc.parsed with
              | none =>
                exact Or.inr ⟨run, articlesText clog.rawArticles, content, rfl, hst2,
                  Or.inr (Or.inl rfl)⟩
              | some draft =>
                exact Or.inr ⟨run, articlesText clog.rawArticles, content, rfl, hst2,
                  Or.inr (Or.inr ⟨draft, rfl⟩)⟩

/-- Every result of the dispatcher handler: unchanged store, or the
run was found in the dispatcher stage and the store evolved by failing
the run or by the three-way success update. -/
theorem emailDispatcher_cases (db : DB) (runId : Nat) (sc : DispatchScenario) :
    (emailDispatcher db runId sc).2 = db
    ∨ ∃ run,
        db.runs.find? (fun r => r.runId == runId) = some run
        ∧ run.currentStage = Stage.dispatcher
        ∧ ((emailDispatcher db runId sc).2 =
              failRun db runId Stage.dispatcher "SMTP error" sc.now
          ∨ (emailDispatcher db runId sc).2 =
              markEmailSent (setBrewLastSent
                (advanceRun db runId Stage.completed sc.now) run.brewId sc.now)
                runId sc.now) := by
  unfold emailDispatcher
  cases hr : db.runs.find? (fun r => r.runId == runId) with
  | none => exact Or.inl rfl
  | some run =>
    dsimp only
    cases hb : db.brews.find? (fun b => b.brewId == run.brewId) with
    | none => exact Or.inl rfl
    | some brew =>
      dsimp only
      cases hu : db.users.find? (fun u => u.userId == run.userId) with
      | none => exact Or.inl rfl
      | some user =>
        dsimp only
        by_cases hst : run.currentStage ≠ Stage.dispatcher
        · rw [if_pos hst]; exact Or.inl rfl
        · rw [if_neg hst]
          have hst2 : run.currentStage = Stage.dispatcher := not_not.mp hst
          cases he : db.editorLogs.find? (fun el => el.runId == runId) with
          | none => exact Or.inl rfl
          | some elog =>
            dsimp only
            cases hec : elog.editorialContent with
            | some draft =>
              dsimp only
              by_cases hsend : sc.sendOk = true
              · rw [if_pos hsend]
                exact Or.inr ⟨run, rfl, hst2, Or.inr rfl⟩
              · rw [if_neg hsend]
                exact Or.inr ⟨run, rfl, hst2, Or.inl rfl⟩
            | none =>
              dsimp only
              cases hraw : elog.rawLlmResponse with
              | none => exact Or.inl rfl
              | some raw =>
                dsimp only
                cases hrp : sc.rawParsed with
                | none => exact Or.inl rfl
                | some draft =>
                  dsimp only
                  by_cases hsend : sc.sendOk = true
                  · rw [if_pos hsend]
                    exact Or.inr ⟨run, rfl, hst2, Or.inr rfl⟩
                  · rw [if_neg hsend]
                    exact Or.inr ⟨run, rfl, hst2, Or.inl rfl⟩

/-- Every result of the manual trigger: unchanged store or one fresh
run created for the brew. -/
theorem triggerBrew_db (db : DB) (brewId : Nat) (now : Int) (pipelineOk : Bool) :
    (triggerBrew db brewId now pipelineOk).2 = db
    ∨ ∃ uid, (triggerBrew db brewId now pipelineOk).2 = (createRun db brewId uid now).2 := by
  unfold triggerBrew
  cases hb : db.brews.find? (fun b => b.brewId == brewId) with
  | none => exact Or.inl rfl
  | some brew =>
    dsimp only
    cases hu : db.users.find? (fun u => u.userId == brew.userId) with
    | none => exact Or.inl rfl
    | some user =>
      dsimp only
      by_cases hact : (!brew.isActive) = true
      · rw [if_pos hact]; exact Or.inl rfl
      · rw [if_neg hact]
        cases hlw : latestWorkingRun db brewId with
        | some r => exact Or.inl rfl
        | none =>
          dsimp only
          by_cases hok : pipelineOk = true
          · rw [if_pos hok]; exact Or.inr ⟨brew.userId, rfl⟩
          · rw [if_neg hok]; exact Or.inr ⟨brew.userId, rfl⟩

/-- The toggle core writes only the feedback table and its id
sequence. -/
theorem submitFeedbackCore_shape (db : DB) (inp : FeedbackInput) (uid ac : Nat) :
    ∃ fb n, (submitFeedbackCore db inp uid ac).2 =
      { db with feedback := fb, nextFeedbackId := n } := by
  unfold submitFeedbackCore
  by_cases h1 : inp.feedbackType = "article" ∧ ac = 0
  · rw [if_pos h1]; exact ⟨_, _, rfl⟩
  · rw [if_neg h1]
    by_cases h2 : inp.feedbackType = "article" ∧
        positionOutOfRange inp.articlePosition ac = true
    · rw [if_pos h2]; exact ⟨_, _, rfl⟩
    · rw [if_neg h2]
      cases hc : classifyRating inp.rating with
      | none => exact ⟨_, _, rfl⟩
      | some t =>
        dsimp only
        cases hf : db.feedback.find?
            (feedbackKey inp.runId uid (inp.articlePosition.getD 0)) with
        | none => exact ⟨_, _, rfl⟩
        | some x =>
          dsimp only
          by_cases hsame : x.feedbackType = t
          · rw [if_pos hsame]; exact ⟨_, _, rfl⟩
          · rw [if_neg hsame]; exact ⟨_, _, rfl⟩

/-- The feedback endpoint writes only the feedback table and its id
sequence. -/
theorem submitFeedback_shape (db : DB) (inp : FeedbackInput) :
    ∃ fb n, (submitFeedback db inp).2 =
      { db with feedback := fb, nextFeedbackId := n } := by
  unfold submitFeedback
  by_cases h1 : inp.feedbackType ≠ "overall" ∧ inp.feedbackType ≠ "article"
  · rw [if_pos h1]; exact ⟨_, _, rfl⟩
  · rw [if_neg h1]
    by_cases h2 : inp.rating < 1 ∨ inp.rating > 5
    · rw [if_pos h2]; exact ⟨_, _, rfl⟩
    · rw [if_neg h2]
      by_cases h3 : inp.feedbackType = "article" ∧ inp.articlePosition = none
      · rw [if_pos h3]; exact ⟨_, _, rfl⟩
      · rw [if_neg h3]
        cases hr : db.runs.find? (fun r => r.runId == inp.runId) with
        | none => exact ⟨_, _, rfl⟩
        | some run =>
          dsimp only
          cases hu : inp.userId with
          | none => exact submitFeedbackCore_shape db inp run.userId _
          | some u =>
            dsimp only
            by_cases hz : u = 0
            · rw [if_pos hz]; exact submitFeedbackCore_shape db inp run.userId _
            · rw [if_neg hz]
              by_cases hne : u ≠ run.userId
              · rw [if_pos hne]; exact ⟨_, _, rfl⟩
              · rw [if_neg hne]; exact submitFeedbackCore_shape db inp u _

/-- The feedback endpoint writes only the feedback table: runs, stage
output records and the run-id sequence are untouched. -/
theorem submitFeedback_tables (db : DB) (inp : FeedbackInput) :
    (submitFeedback db inp).2.runs = db.runs
    ∧ (submitFeedback db inp).2.curatorLogs = db.curatorLogs
    ∧ (submitFeedback db inp).2.editorLogs = db.editorLogs
    ∧ (submitFeedback db inp).2.nextRunId = db.nextRunId := by
  obtain ⟨fb, n, h⟩ := submitFeedback_shape db inp
  rw [h]
  exact ⟨rfl, rfl, rfl, rfl⟩

/-! ## Preservation of well-formedness by every unit of work -/

theorem applyStep_WF (db : DB) (s : Step) (hwf : WF db) : WF (applyStep db s) := by
  cases s with
  | trigger b now ok =>
    show WF (triggerBrew db b now ok).2
    rcases triggerBrew_db db b now ok with heq | ⟨uid, heq⟩
    · rw [heq]; exact hwf
    · rw [heq]; exact WF_createRun db b uid now hwf
  | sweep now =>
    exact foldl_createRun_WF now _ db hwf
  | curatorStep b r sc =>
    show WF (newsCurator db b r sc).2
    rcases newsCurator_cases db b r sc with heq | ⟨run, uid, content, -, -, hcase⟩
    · rw [heq]; exact hwf
    · rcases hcase with heq | heq | ⟨articles, notes, heq⟩
      · rw [heq]; exact WF_updateRuns db r _ (fun a => rfl) hwf
      · rw [heq]
        exact WF_updateRuns _ r _ (fun a => rfl) (WF_of_runs_eq db _ rfl rfl hwf)
      · rw [heq]
        exact WF_updateRuns _ r _ (fun a => rfl) (WF_of_runs_eq db _ rfl rfl hwf)
  | editorStep r sc =>
    show WF (newsEditor db r sc).2
    rcases newsEditor_cases db r sc with heq | ⟨run, prompt, content, -, -, hcase⟩
    · rw [heq]; exact hwf
    · rcases hcase with heq | heq | ⟨draft, heq⟩
      · rw [heq]; exact WF_updateRuns db r _ (fun a => rfl) hwf
      · rw [heq]
        exact WF_updateRuns _ r _ (fun a => rfl) (WF_of_runs_eq db _ rfl rfl hwf)
      · rw [heq]
        exact WF_updateRuns _ r _ (fun a => rfl) (WF_of_runs_eq db _ rfl rfl hwf)
  | dispatchStep r sc =>
    show WF (emailDispatcher db r sc).2
    rcases emailDispatcher_cases db r sc with heq | ⟨run, -, -, hcase⟩
    · rw [heq]; exact hwf
    · rcases hcase with heq | heq
      · rw [heq]; exact WF_updateRuns db r _ (fun a => rfl) hwf
      · rw [heq]
        exact WF_of_runs_eq (advanceRun db r Stage.completed sc.now) _ rfl rfl
          (WF_updateRuns db r _ (fun a => rfl) hwf)
  | feedbackStep inp =>
    obtain ⟨h1, -, -, h4⟩ := submitFeedback_tables db inp
    exact WF_of_runs_eq db _ h1 h4 hwf

/-! ## The raw-before-parsed invariant -/

/-- Raw-before-parsed invariant of the store: every stage output
record (curator log or editor log) that exists carries a non-null raw
upstream response. -/
def rawInv (db : DB) : Prop :=
  (∀ cl ∈ db.curatorLogs, cl.rawLlmResponse.isSome = true)
  ∧ (∀ el ∈ db.editorLogs, el.rawLlmResponse.isSome = true)

/-- The invariant transfers along equal log tables. -/
theorem rawInv_of_logs_eq (db db' : DB) (hc : db'.curatorLogs = db.curatorLogs)
    (he : db'.editorLogs = db.editorLogs) (h : rawInv db) : rawInv db' := by
  obtain ⟨h1, h2⟩ := h
  constructor
  · intro x hx; rw [hc] at hx; exact h1 x hx
  · intro x hx; rw [he] at hx; exact h2 x hx

theorem applyStep_rawInv (db : DB) (s : Step) (h : rawInv db) :
    rawInv (applyStep db s) := by
  obtain ⟨hc, he⟩ := h
  cases s with
  | trigger b now ok =>
    show rawInv (triggerBrew db b now ok).2
    rcases triggerBrew_db db b now ok with heq | ⟨uid, heq⟩
    · rw [heq]; exact ⟨hc, he⟩
    · rw [heq]; exact ⟨hc, he⟩
  | sweep now =>
    obtain ⟨h1, h2⟩ := foldl_createRun_logs now
      (db.brews.filter fun b => schedulerDueBrew db b now) db
    exact rawInv_of_logs_eq db _ h1 h2 ⟨hc, he⟩
  | curatorStep b r sc =>
    show rawInv (newsCurator db b r sc).2
    rcases newsCurator_cases db b r sc with heq | ⟨run, uid, content, -, -, hcase⟩
    · rw [heq]; exact ⟨hc, he⟩
    · have happ : ∀ cl ∈ db.curatorLogs ++
          [(⟨r, uid, [], 0, some content, ""⟩ : CuratorLog)],
          cl.rawLlmResponse.isSome = true := by
        intro cl hcl
        rcases List.mem_append.mp hcl with hm | hm
        · exact hc cl hm
        · rw [List.mem_singleton.mp hm]; rfl
      rcases hcase with heq | heq | ⟨articles, notes, heq⟩
      · rw [heq]; exact ⟨hc, he⟩
      · rw [heq]; exact ⟨happ, he⟩
      · rw [heq]
        constructor
        · intro cl hcl
          have hcl2 : cl ∈ (db.curatorLogs ++
              [(⟨r, uid, [], 0, some content, ""⟩ : CuratorLog)]).map
                (fun x => if x.runId == r then
                  { x with rawArticles := articles, curatorNotes := notes } else x) := hcl
          rcases List.mem_map.mp hcl2 with ⟨a, ha, rfl⟩
          have hraw : (if a.runId == r then
              { a with rawArticles := articles, curatorNotes := notes }
              else a).rawLlmResponse = a.rawLlmResponse := by
            by_cases hid : (a.runId == r) = true
            · rw [if_pos hid]
            · rw [if_neg hid]
          rw [hraw]
          exact happ a ha
        · exact he
  | editorStep r sc =>
    show rawInv (newsEditor db r sc).2
    rcases newsEditor_cases db r sc with heq | ⟨run, prompt, content, -, -, hcase⟩
    · rw [heq]; exact ⟨hc, he⟩
    · have happ : ∀ el ∈ db.editorLogs ++
          [(⟨r, run.userId, run.brewId, prompt, some content, none, false, none⟩ :
            EditorLog)],
          el.rawLlmResponse.isSome = true := by
        intro el hel
        rcases List.mem_append.mp hel with hm | hm
        · exact he el hm
        · rw [List.mem_singleton.mp hm]; rfl
      rcases hcase with heq | heq | ⟨draft, heq⟩
      · rw [heq]; exact ⟨hc, he⟩
      · rw [heq]; exact ⟨hc, happ⟩
      · rw [heq]
        constructor
        · exact hc
        · intro el hel
          have hel2 : el ∈ (db.editorLogs ++
              [(⟨r, run.userId, run.brewId, prompt, some content, none, false,
                 none⟩ : EditorLog)]).map
                (fun x => if x.runId == r then
                  { x with editorialContent := some draft } else x) := hel
          rcases List.mem_map.mp hel2 with ⟨a, ha, rfl⟩
          have hraw : (if a.runId == r then
              { a with editorialContent := some draft }
              else a).rawLlmResponse = a.rawLlmResponse := by
            by_cases hid : (a.runId == r) = true
            · rw [if_pos hid]
            · rw [if_neg hid]
          rw [hraw]
          exact happ a ha
  | dispatchStep r sc =>
    show rawInv (emailDispatcher db r sc).2
    rcases emailDispatcher_cases db r sc with heq | ⟨run, -, -, hcase⟩
    · rw [heq]; exact ⟨hc, he⟩
    · rcases hcase with heq | heq
      · rw [heq]; exact ⟨hc, he⟩
      · rw [heq]
        constructor
        · exact hc
        · intro el hel
          have hel2 : el ∈ db.editorLogs.map
              (fun x => if x.runId == r then
                { x with emailSent := true, emailSentTime := some sc.now } else x) := hel
          rcases List.mem_map.mp hel2 with ⟨a, ha, rfl⟩
          have hraw : (if a.runId == r then
              { a with emailSent := true, emailSentTime := some sc.now }
              else a).rawLlmResponse = a.rawLlmResponse := by
            by_cases hid : (a.runId == r) = true
            · rw [if_pos hid]
            · rw [if_neg hid]
          rw [hraw]
          exact he a ha
  | feedbackStep inp =>
    obtain ⟨-, h2, h3, -⟩ := submitFeedback_tables db inp
    exact rawInv_of_logs_eq db _ h2 h3 ⟨hc, he⟩

/-- Stores reachable by running the modelled units of work from any
store that holds no stage output records yet. -/
inductive Reachable : DB → Prop
  | init (db : DB) (hc : db.curatorLogs = []) (he : db.editorLogs = []) :
      Reachable db
  | step (db : DB) (s : Step) (h : Reachable db) : Reachable (applyStep db s)

/-- C4: in every reachable store, every stage output record that
exists has a non-null raw upstream response, whether or not the
structured field was ever populated: both workers insert (and commit)
the raw response before attempting to parse it, and no later update
clears it, so a parse failure leaves the record with its raw text. -/
theorem c4_raw_before_parsed (db : DB) (h : Reachable db) : rawInv db := by
  induction h with
  | init db hc he =>
    constructor
    · intro x hx; rw [hc] at hx; cases hx
    · intro x hx; rw [he] at hx; cases hx
  | step db s _ ih => exact applyStep_rawInv db s ih

/-- Witness for c4_raw_before_parsed: after a successful curator step
on the sample store the store is reachable, holds one curator log, and
satisfies the invariant. -/
theorem c4_raw_before_parsed_witness :
    Reachable (applyStep dbC (Step.curatorStep 1 1 ⟨some "raw text", some ⟨[], "n"⟩, 10⟩))
    ∧ (applyStep dbC
        (Step.curatorStep 1 1 ⟨some "raw text", some ⟨[], "n"⟩, 10⟩)).curatorLogs.length = 1
    ∧ rawInv (applyStep dbC (Step.curatorStep 1 1 ⟨some "raw text", some ⟨[], "n"⟩, 10⟩)) :=
  ⟨Reachable.step dbC _ (Reachable.init dbC rfl rfl),
   rfl,
   c4_raw_before_parsed _ (Reachable.step dbC _ (Reachable.init dbC rfl rfl))⟩

/-! ## Stage monotonicity of every unit of work -/

/-- A run-tracker UPDATE that a handler performs only after verifying
the ownership stage moves the observed stage of the target run along
one edge and leaves every other id unchanged. -/
theorem stageRel_of_guarded_update (db db2 : DB) (target : Nat) (g : Run → Run)
    (hg : ∀ a : Run, (g a).runId = a.runId)
    (hruns : db2.runs = db.runs)
    (s0 s1 : Stage)
    (hstage0 : stageAt db target = some s0)
    (hgs : ∀ a : Run, (g a).currentStage = s1)
    (hedge : stageEdge s0 s1 = true)
    (rid : Nat) :
    stageRel (stageAt db rid) (stageAt (updateRuns db2 target g) rid) := by
  rw [stageAt_updateRuns db2 target g hg rid,
    show db2.runs.find? (fun x => x.runId == rid) =
      db.runs.find? (fun x => x.runId == rid) from by rw [hruns]]
  unfold stageAt at hstage0 ⊢
  cases hf : db.runs.find? (fun x => x.runId == rid) with
  | none => exact trivial
  | some r0 =>
    have hid : r0.runId = rid := by simpa using List.find?_some hf
    dsimp only [Option.map]
    by_cases hr : rid = target
    · subst hr
      rw [hf] at hstage0
      have hr0 : r0.currentStage = s0 := by simpa using hstage0
      rw [if_pos (by simp [hid]), hgs r0, hr0]
      exact Or.inr hedge
    · rw [if_neg (by simp [hid]; exact hr)]
      exact Or.inl rfl

theorem applyStep_stageRel (db : DB) (s : Step) (hwf : WF db) (rid : Nat) :
    stageRel (stageAt db rid) (stageAt (applyStep db s) rid) := by
  cases s with
  | trigger b now ok =>
    show stageRel _ (stageAt (triggerBrew db b now ok).2 rid)
    rcases triggerBrew_db db b now ok with heq | ⟨uid, heq⟩
    · rw [heq]; exact stageRel_refl _
    · rw [heq]; exact insRel_stageRel _ _ (createRun_insRel db b uid now rid)
  | sweep now =>
    exact insRel_stageRel _ _ (foldl_createRun_insRel now rid _ db)
  | curatorStep b r sc =>
    show stageRel _ (stageAt (newsCurator db b r sc).2 rid)
    rcases newsCurator_cases db b r sc with heq | ⟨run, uid, content, hfind, hst, hcase⟩
    · rw [heq]; exact stageRel_refl _
    · have hmem : run ∈ db.runs := List.mem_of_find?_eq_some hfind
      have hfound := List.find?_some hfind
      have hrunid : run.runId = r := by
        simp only [Bool.and_eq_true, beq_iff_eq] at hfound
        exact hfound.1
      have hfid : db.runs.find? (fun x => x.runId == r) = some run := by
        rw [← hrunid]
        exact find?_runId_of_mem db.runs hwf.1 run hmem
      have hstage0 : stageAt db r = some Stage.curator := by
        unfold stageAt
        rw [hfid]
        dsimp only [Option.map]
        rw [hst]
      rcases hcase with heq | heq | ⟨articles, notes, heq⟩
      · rw [heq]
        refine stageRel_of_guarded_update db db r _ ?_ rfl
          Stage.curator Stage.failed hstage0 ?_ rfl rid
        · intro a; rfl
        · intro a; rfl
      · rw [heq]
        refine stageRel_of_guarded_update db _ r _ ?_ rfl
          Stage.curator Stage.failed hstage0 ?_ rfl rid
        · intro a; rfl
        · intro a; rfl
      · rw [heq]
        refine stageRel_of_guarded_update db _ r _ ?_ rfl
          Stage.curator Stage.editor hstage0 ?_ rfl rid
        · intro a; rfl
        · intro a; rfl
  | editorStep r sc =>
    show stageRel _ (stageAt (newsEditor db r sc).2 rid)
    rcases newsEditor_cases db r sc with heq | ⟨run, prompt, content, hfind, hst, hcase⟩
    · rw [heq]; exact stageRel_refl _
    · have hstage0 : stageAt db r = some Stage.editor := by
        unfold stageAt
        rw [hfind]
        dsimp only [Option.map]
        rw [hst]
      rcases hcase with heq | heq | ⟨draft, heq⟩
      · rw [heq]
        refine stageRel_of_guarded_update db db r _ ?_ rfl
          Stage.editor Stage.failed hstage0 ?_ rfl rid
        · intro a; rfl
        · intro a; rfl
      · rw [heq]
        refine stageRel_of_guarded_update db _ r _ ?_ rfl
          Stage.editor Stage.failed hstage0 ?_ rfl rid
        · intro a; rfl
        · intro a; rfl
      · rw [heq]
        refine stageRel_of_guarded_update db _ r _ ?_ rfl
          Stage.editor Stage.dispatcher hstage0 ?_ rfl rid
        · intro a; rfl
        · intro a; rfl
  | dispatchStep r sc =>
    show stageRel _ (stageAt (emailDispatcher db r sc).2 rid)
    rcases emailDispatcher_cases db r sc with heq | ⟨run, hfind, hst, hcase⟩
    · rw [heq]; exact stageRel_refl _
    · have hstage0 : stageAt db r = some Stage.dispatcher := by
        unfold stageAt
        rw [hfind]
        dsimp only [Option.map]
        rw [hst]
      rcases hcase with heq | heq
      · rw [heq]
        refine stageRel_of_guarded_update db db r _ ?_ rfl
          Stage.dispatcher Stage.failed hstage0 ?_ rfl rid
        · intro a; rfl
        · intro a; rfl
      · rw [heq]
        rw [stageAt_of_runs_eq (advanceRun db r Stage.completed sc.now)
          (markEmailSent (setBrewLastSent (advanceRun db r Stage.completed sc.now)
            run.brewId sc.now) r sc.now) rfl rid]
        refine stageRel_of_guarded_update db db r _ ?_ rfl
          Stage.dispatcher Stage.completed hstage0 ?_ rfl rid
        · intro a; rfl
        · intro a; rfl
  | feedbackStep inp =>
    show stageRel _ (stageAt (submitFeedback db inp).2 rid)
    rw [stageAt_of_runs_eq db _ (submitFeedback_tables db inp).1 rid]
    exact stageRel_refl _

/-- Along any execution, consecutive observed stages of one run id
are related by stageRel. -/
theorem scan_chain (rid : Nat) : ∀ (steps : List Step) (db : DB), WF db →
    List.Chain' stageRel ((steps.scanl applyStep db).map fun d => stageAt d rid) := by
  intro steps
  induction steps with
  | nil =>
    intro db _
    simp [List.scanl]
  | cons s steps ih =>
    intro db hwf
    rw [List.scanl, List.map_cons, List.chain'_cons']
    constructor
    · intro y hy
      have hhead : ((steps.scanl applyStep (applyStep db s)).map
          fun d => stageAt d rid).head? = some (stageAt (applyStep db s) rid) := by
        cases steps <;> simp [List.scanl]
      rw [hhead] at hy
      have hyy : y = stageAt (applyStep db s) rid := by
        have h2 := hy
        simp at h2
        exact h2.symm
      rw [hyy]
      exact applyStep_stageRel db s hwf rid
    · exact ih (applyStep db s) (applyStep_WF db s hwf)

/-- Sequence of distinct values current_stage of one run takes over
the lifetime of an execution, starting from the given store. -/
def observedStages (db : DB) (steps : List Step) (rid : Nat) : List Stage :=
  dedupConsec (((steps.scanl applyStep db).map fun d => stageAt d rid).filterMap id)

/-- C1: over any execution of the modelled units of work starting from
a well-formed store in which the run id does not exist yet, the
sequence of values its current_stage takes is exactly one of: curator;
curator, editor; curator, editor, dispatcher; curator, editor,
dispatcher, completed; or a strict prefix of the working stages ended
by failed (or empty, when the run is never created).  No unit of work
skips a stage or moves current_stage backward. -/
theorem c1_stage_monotonic (db : DB) (steps : List Step) (rid : Nat)
    (hwf : WF db) (h0 : stageAt db rid = none) :
    observedStages db steps rid ∈ allowedHistories := by
  have hchain := scan_chain rid steps db hwf
  have hh : ∀ s, (((steps.scanl applyStep db).map fun d => stageAt d rid).head? =
      some (some s)) → s = Stage.curator := by
    intro s hs
    have hhead : ((steps.scanl applyStep db).map fun d => stageAt d rid).head? =
        some (stageAt db rid) := by
      cases steps <;> simp [List.scanl]
    rw [hhead, h0] at hs
    cases Option.some_inj.mp hs
  obtain ⟨hnil_or, hchain2⟩ := chain_filterMap _ hchain hh
  obtain ⟨hdh, hdc⟩ := dedupConsec_chain _ hchain2
  unfold observedStages
  rcases hnil_or with hnil | hhead
  · rw [hnil]
    show dedupConsec [] ∈ allowedHistories
    decide
  · exact chain_mem_allowed _ (by rw [hdh]; exact hhead) hdc

/-- Sample store for the full-pipeline witness: user and brew present,
no runs yet. -/
def db1W : DB := ⟨[userC], [brewC], [], [], [], [], 1, 0⟩

/-- Sample full pipeline execution: manual trigger creating run 1,
then a successful curator, editor and dispatcher invocation. -/
def stepsW : List Step :=
  [Step.trigger 1 0 true,
   Step.curatorStep 1 1 ⟨some "x", some ⟨[], ""⟩, 1⟩,
   Step.editorStep 1 ⟨some "y", some draftC, 2⟩,
   Step.dispatchStep 1 ⟨true, none, 3⟩]

/-- Witness for c1_stage_monotonic: the sample execution walks run 1
through curator, editor, dispatcher, completed. -/
theorem c1_stage_monotonic_witness :
    WF db1W
    ∧ stageAt db1W 1 = none
    ∧ observedStages db1W stepsW 1 =
        [Stage.curator, Stage.editor, Stage.dispatcher, Stage.completed]
    ∧ observedStages db1W stepsW 1 ∈ allowedHistories :=
  ⟨by decide, rfl, by decide, c1_stage_monotonic db1W stepsW 1 (by decide) rfl⟩

end TimeBrew
